import Mathlib

/-!
A shallow embedding of the `zp` zip-metadata parser (crates `zp-lib` and `zp`).

The byte stream is a `List Nat` (each element one byte of the input, `< 256`
for real inputs).  Pure Rust functions become Lean functions; the `BufReader`
reads become explicit state passing over the remaining byte list; fallible
code returns `Option`/`Except`.  A Rust `panic!` (an `unwrap()` firing) is
modelled as `Option.none` / a dedicated `panicked` outcome.

Two implementations of the same tool live in the repository and are embedded
separately:
  * the current pipeline: `src/lib/src/zip.rs` (`Zip::process` / `Zip::output`)
    over the `binrw`-derived record types of `src/lib/src/entries.rs`, with the
    helpers of `src/lib/src/functions.rs`;
  * the historical snapshot: the private `process` function of
    `src/lib/src/lib.rs`, a single hand-written decode-and-render loop.
-/

namespace Zp

/-- `read_n` from `src/lib/src/lib.rs` (and the primitive byte reads the
`binrw` derives perform): take exactly `n` bytes from the stream, failing when
fewer are available (`read_exact` / `failed to fill whole buffer`). -/
def read_n (n : Nat) (s : List Nat) : Option (List Nat × List Nat) :=
  if n ≤ s.length then some (s.take n, s.drop n) else none

/-- Little-endian accumulation `sum (x_i << 8*i)` shared by `u16le`/`u32le` in
`src/lib/src/lib.rs`; `% 256` models that each stream element is a `u8`. -/
def leVal (a : List Nat) : Nat :=
  a.foldr (fun b acc => b % 256 + 256 * acc) 0

/-- `u16le` from `src/lib/src/lib.rs`: first two bytes, little endian. -/
def u16le (a : List Nat) : Nat := leVal (a.take 2)

/-- `u32le` from `src/lib/src/lib.rs`: first four bytes, little endian. -/
def u32le (a : List Nat) : Nat := leVal (a.take 4)

/-- `u32be` from `src/lib/src/lib.rs`: first four bytes, big endian. -/
def u32be (a : List Nat) : Nat := leVal ((a.take 4).reverse)

/-- `mod_time` from `src/lib/src/functions.rs`: split a DOS time word into
`((hour, minute, second), raw)`; the `% 256` are the `as u8` casts. -/
def mod_time (n : Nat) : (Nat × Nat × Nat) × Nat :=
  ((n >>> 11 % 256, (n >>> 5 &&& 63) % 256, 2 * ((n &&& 31) % 256) % 256), n)

/-- `mod_date` from `src/lib/src/functions.rs`: split a DOS date word into
`((year, month, day), raw)`; `% 65536` is the `u16` addition. -/
def mod_date (n : Nat) : (Nat × Nat × Nat) × Nat :=
  (((n >>> 9 + 1980) % 65536, (n >>> 5 &&& 15) % 256, (n &&& 31) % 256), n)

/-- Verification-side encoder: the two little-endian bytes of a `u16`. -/
def enc16 (n : Nat) : List Nat := [n % 256, n / 256 % 256]

/-- Verification-side encoder: the four little-endian bytes of a `u32`. -/
def enc32 (n : Nat) : List Nat :=
  [n % 256, n / 256 % 256, n / 65536 % 256, n / 16777216 % 256]

/-! ### Text rendering primitives

The Rust side formats with `format!`; the pieces used are lowercase hex
(`{:0wx}`), decimal (`{}` / `{:0w}`), `Debug` of strings and byte slices, and
UTF-8 decoding (`std::str::from_utf8`).  They are implemented here directly
(fuel-structural, so that concrete witnesses evaluate by `rfl`/`decide`). -/

/-- One lowercase hex digit (0-9, a-f), as `core::fmt::LowerHex` renders it. -/
def hexDigitChar (n : Nat) : Char :=
  if n < 10 then Char.ofNat (48 + n) else Char.ofNat (87 + n)

/-- Hex digits of `n`, most significant first; fuel-structural. -/
def hexDigitsF : Nat → Nat → List Char
  | 0, _ => []
  | f + 1, n =>
    if n < 16 then [hexDigitChar n]
    else hexDigitsF f (n / 16) ++ [hexDigitChar (n % 16)]

/-- `{:x}`: lowercase hex rendering of a number, no padding. -/
def hexStr (n : Nat) : String := String.mk (hexDigitsF (n + 1) n)

/-- Zero left-padding to width `w`, as `{:0w…}` does. -/
def padLeft0 (w : Nat) (s : String) : String :=
  String.mk (List.replicate (w - s.length) '0' ++ s.data)

/-- `{:0wx}`: lowercase hex, zero-padded to width `w`. -/
def hexPad (w n : Nat) : String := padLeft0 w (hexStr n)

/-- Decimal digits of `n`, most significant first; fuel-structural. -/
def decDigitsF : Nat → Nat → List Char
  | 0, _ => []
  | f + 1, n =>
    if n < 10 then [Char.ofNat (48 + n)]
    else decDigitsF f (n / 10) ++ [Char.ofNat (48 + n % 10)]

/-- `{}` on an unsigned integer: decimal rendering. -/
def decStr (n : Nat) : String := String.mk (decDigitsF (n + 1) n)

/-- `{:0w}`: decimal, zero-padded to width `w`. -/
def decPad (w n : Nat) : String := padLeft0 w (decStr n)

/-- `hex::encode`: each byte as two lowercase hex digits. -/
def hex_encode (bs : List Nat) : String :=
  String.join (bs.map (fun b => hexPad 2 b))

/-- `{}` on a `bool`. -/
def boolStr (b : Bool) : String := if b then "true" else "false"

/-- `{:?}` on a triple of unsigned integers, e.g. `(9, 5, 38)`. -/
def tuple3Debug (t : Nat × Nat × Nat) : String :=
  "(" ++ decStr t.1 ++ ", " ++ decStr t.2.1 ++ ", " ++ decStr t.2.2 ++ ")"

/-- How `char::escape_debug` renders one character inside a `{:?}` string:
the named ASCII escapes, `\u{..}` for other control characters, the
character itself otherwise. -/
def escDebugChar (c : Char) : List Char :=
  if c = '"' then ['\\', '"']
  else if c = '\\' then ['\\', '\\']
  else if c = '\n' then ['\\', 'n']
  else if c = '\t' then ['\\', 't']
  else if c = '\r' then ['\\', 'r']
  else if c.toNat < 32 ∨ c.toNat = 127 then
    '\\' :: 'u' :: '\x7b' :: (hexDigitsF (c.toNat + 1) c.toNat ++ ['\x7d'])
  else [c]

/-- `{:?}` on a string: double quotes around the escaped characters. -/
def rustDebugStr (s : String) : String :=
  String.mk ('"' :: (s.data.map escDebugChar).flatten ++ ['"'])

/-- Is `b` a UTF-8 continuation byte (`0x80..=0xBF`)? -/
def contB (b : Nat) : Bool := decide (128 ≤ b ∧ b < 192)

/-- UTF-8 decoding of a byte list, exactly the sequences `str::from_utf8`
accepts (RFC 3629: no overlong forms, no surrogates, max U+10FFFF). -/
def utf8d : List Nat → Option (List Char)
  | [] => some []
  | b :: r =>
    if b < 128 then (utf8d r).map (fun cs => Char.ofNat b :: cs)
    else if b < 194 then none
    else if b < 224 then
      match r with
      | c1 :: r1 =>
        if contB c1 then
          (utf8d r1).map (fun cs => Char.ofNat ((b - 192) * 64 + (c1 - 128)) :: cs)
        else none
      | [] => none
    else if b < 240 then
      match r with
      | c1 :: c2 :: r2 =>
        if (if b = 224 then decide (160 ≤ c1 ∧ c1 < 192)
            else if b = 237 then decide (128 ≤ c1 ∧ c1 < 160)
            else contB c1) && contB c2 then
          (utf8d r2).map
            (fun cs => Char.ofNat ((b - 224) * 4096 + (c1 - 128) * 64 + (c2 - 128)) :: cs)
        else none
      | _ => none
    else if b < 245 then
      match r with
      | c1 :: c2 :: c3 :: r3 =>
        if (if b = 240 then decide (144 ≤ c1 ∧ c1 < 192)
            else if b = 244 then decide (128 ≤ c1 ∧ c1 < 144)
            else contB c1) && contB c2 && contB c3 then
          (utf8d r3).map
            (fun cs =>
              Char.ofNat
                ((b - 240) * 262144 + (c1 - 128) * 4096 + (c2 - 128) * 64 + (c3 - 128)) :: cs)
        else none
      | _ => none
    else none

/-- `std::str::from_utf8`, as an `Option`: `none` models `Err(Utf8Error)`
(and hence a firing `unwrap()` at the call sites that unwrap it). -/
def fromUtf8 (bs : List Nat) : Option String := (utf8d bs).map String.mk

/-- `str::parse::<u8>` on the digit pieces `magic_hex` produces (the `% 256`
overflow check of `u8` parsing is irrelevant there and not modelled). -/
def parseDec : List Char → Option Nat
  | [] => none
  | l => go l 0
where
  go : List Char → Nat → Option Nat
    | [], acc => some acc
    | c :: r, acc =>
      if 48 ≤ c.toNat ∧ c.toNat ≤ 57 then go r (acc * 10 + (c.toNat - 48)) else none

/-- How `format!("{:?}", found)` renders the bytes of a `binrw` bad-magic
value: the `Debug` form of a byte array, e.g. `[0, 0, 0, 1]`. -/
def magicDebug (bs : List Nat) : String :=
  "[" ++ String.intercalate ", " (bs.map decStr) ++ "]"

/-- Splitting a character list on the two-character separator `", "`, the
behaviour of `str::split(", ")` as `magic_hex` uses it. -/
def splitCS : List Char → List Char → List (List Char)
  | [], acc => [acc.reverse]
  | ',' :: ' ' :: r, acc => acc.reverse :: splitCS r []
  | c :: r, acc => splitCS r (c :: acc)

/-- `magic_hex` from `src/lib/src/functions.rs`: strip the brackets of the
`Debug` form (`replace` of `[` and `]` by nothing), split on `", "`, parse
each decimal byte and print it as two lowercase hex digits.  The source
unwraps the parse; the `getD 0` never fires on the `Debug`-formatted inputs
the program feeds it.  The `String.replace`/`splitOn` library calls are
implemented structurally here so that concrete instances compute. -/
def magic_hex (s : String) : String :=
  String.join
    ((splitCS (s.data.filter (fun c => c ≠ '[' ∧ c ≠ ']')) []).map
      (fun x => hexPad 2 ((parseDec x).getD 0)))

/-! ### The record types of `src/lib/src/entries.rs` -/

/-- `DataDescriptor` from `src/lib/src/entries.rs`. -/
structure DataDescriptor where
  crc32 : Nat
  compressed_size : Nat
  uncompressed_size : Nat
deriving DecidableEq

/-- `LocalFile` from `src/lib/src/entries.rs` (magic `0x504b0304`). -/
structure LocalFile where
  version : Nat
  flags : Nat
  compression : Nat
  mod_time : Nat
  mod_date : Nat
  crc32 : Nat
  compressed_size : Nat
  uncompressed_size : Nat
  file_name_length : Nat
  extra_field_length : Nat
  file_name : List Nat
  extra_field : List Nat
  file_data : List Nat
  data_descriptor : Option DataDescriptor
deriving DecidableEq

/-- `CentralDirectoryFileHeader` from `src/lib/src/entries.rs`
(magic `0x504b0102`). -/
structure CentralDirectoryFileHeader where
  version : Nat
  version_needed : Nat
  flags : Nat
  compression : Nat
  mod_time : Nat
  mod_date : Nat
  crc32 : Nat
  compressed_size : Nat
  uncompressed_size : Nat
  file_name_length : Nat
  extra_field_length : Nat
  file_comment_length : Nat
  disk_number_start : Nat
  internal_file_attributes : Nat
  external_file_attributes : Nat
  lfh_offset : Nat
  file_name : List Nat
  extra_field : List Nat
  file_comment : List Nat
deriving DecidableEq

/-- `EndOfCentralDirectoryRecord` from `src/lib/src/entries.rs`
(magic `0x504b0506`). -/
structure EndOfCentralDirectoryRecord where
  disk_number : Nat
  disk_number_w_cd : Nat
  disk_entries : Nat
  total_entries : Nat
  cd_size : Nat
  cd_offset : Nat
  comment_length : Nat
  zip_file_comment : List Nat
deriving DecidableEq

/-- `Entry` from `src/lib/src/entries.rs`: the tagged union of the three
record kinds. -/
inductive Entry where
  | localFile : LocalFile → Entry
  | centralDirectoryFileHeader : CentralDirectoryFileHeader → Entry
  | endOfCentralDirectoryRecord : EndOfCentralDirectoryRecord → Entry
deriving DecidableEq

/-! ### The `binrw`-derived decoder

`entries.rs` only declares the record layouts; the decoding loop itself is
generated by `binrw` (`#[derive(BinRead)]`, `#[br(magic = …)]`,
`#[br(count = …)]`, `#[br(if(…))]`, `#[br(parse_with = until_eof)]`), a crate
outside this repository.  Modelled from the spec: per record, read the 4-byte
signature (fewer than 4 bytes remaining is end of stream), dispatch on it
(no match at all is an invalid signature), then read the record's fields in
declaration order, where any short read after the matched signature aborts
the whole decode (`TruncatedInput`); `until_eof` collects records until the
end-of-stream case. -/

/-- Why one `Entry` read failed, distinguishing the three outcomes the
error handling of `Zip::process` (`src/lib/src/zip.rs`) branches on. -/
inductive ParseErr where
  | eof : ParseErr
  | badMagic : List Nat → ParseErr
  | truncated : ParseErr
deriving DecidableEq

/-- The field reads of `LocalFile` after its signature matched, in the
declaration order of `entries.rs`, with the `count = …` variable-length
fields and the flag-bit-3-gated trailing `DataDescriptor`. -/
def parseLocalFileBody (s0 : List Nat) : Option (LocalFile × List Nat) :=
  match read_n 2 s0 with
  | none => none
  | some (vb, s1) =>
  match read_n 2 s1 with
  | none => none
  | some (flb, s2) =>
  match read_n 2 s2 with
  | none => none
  | some (cb, s3) =>
  match read_n 2 s3 with
  | none => none
  | some (mtb, s4) =>
  match read_n 2 s4 with
  | none => none
  | some (mdb, s5) =>
  match read_n 4 s5 with
  | none => none
  | some (crcb, s6) =>
  match read_n 4 s6 with
  | none => none
  | some (csb, s7) =>
  match read_n 4 s7 with
  | none => none
  | some (usb, s8) =>
  match read_n 2 s8 with
  | none => none
  | some (fnlb, s9) =>
  match read_n 2 s9 with
  | none => none
  | some (eflb, s10) =>
  match read_n (u16le fnlb) s10 with
  | none => none
  | some (name, s11) =>
  match read_n (u16le eflb) s11 with
  | none => none
  | some (extra, s12) =>
  match read_n (u32le csb) s12 with
  | none => none
  | some (dat, s13) =>
  if u16le flb &&& 8 ≠ 0 then
    match read_n 4 s13 with
    | none => none
    | some (d1, s14) =>
    match read_n 4 s14 with
    | none => none
    | some (d2, s15) =>
    match read_n 4 s15 with
    | none => none
    | some (d3, s16) =>
    some (⟨u16le vb, u16le flb, u16le cb, u16le mtb, u16le mdb, u32le crcb,
      u32le csb, u32le usb, u16le fnlb, u16le eflb, name, extra, dat,
      some ⟨u32le d1, u32le d2, u32le d3⟩⟩, s16)
  else
    some (⟨u16le vb, u16le flb, u16le cb, u16le mtb, u16le mdb, u32le crcb,
      u32le csb, u32le usb, u16le fnlb, u16le eflb, name, extra, dat, none⟩, s13)

/-- The field reads of `CentralDirectoryFileHeader` after its signature
matched, in the declaration order of `entries.rs`. -/
def parseCentralBody (s0 : List Nat) :
    Option (CentralDirectoryFileHeader × List Nat) :=
  match read_n 2 s0 with
  | none => none
  | some (vb, s1) =>
  match read_n 2 s1 with
  | none => none
  | some (vnb, s2) =>
  match read_n 2 s2 with
  | none => none
  | some (flb, s3) =>
  match read_n 2 s3 with
  | none => none
  | some (cb, s4) =>
  match read_n 2 s4 with
  | none => none
  | some (mtb, s5) =>
  match read_n 2 s5 with
  | none => none
  | some (mdb, s6) =>
  match read_n 4 s6 with
  | none => none
  | some (crcb, s7) =>
  match read_n 4 s7 with
  | none => none
  | some (csb, s8) =>
  match read_n 4 s8 with
  | none => none
  | some (usb, s9) =>
  match read_n 2 s9 with
  | none => none
  | some (fnlb, s10) =>
  match read_n 2 s10 with
  | none => none
  | some (eflb, s11) =>
  match read_n 2 s11 with
  | none => none
  | some (fclb, s12) =>
  match read_n 2 s12 with
  | none => none
  | some (dnsb, s13) =>
  match read_n 2 s13 with
  | none => none
  | some (ifab, s14) =>
  match read_n 4 s14 with
  | none => none
  | some (efab, s15) =>
  match read_n 4 s15 with
  | none => none
  | some (lfhb, s16) =>
  match read_n (u16le fnlb) s16 with
  | none => none
  | some (name, s17) =>
  match read_n (u16le eflb) s17 with
  | none => none
  | some (extra, s18) =>
  match read_n (u16le fclb) s18 with
  | none => none
  | some (comment, s19) =>
  some (⟨u16le vb, u16le vnb, u16le flb, u16le cb, u16le mtb, u16le mdb,
    u32le crcb, u32le csb, u32le usb, u16le fnlb, u16le eflb, u16le fclb,
    u16le dnsb, u16le ifab, u32le efab, u32le lfhb, name, extra, comment⟩, s19)

/-- The field reads of `EndOfCentralDirectoryRecord` after its signature
matched, in the declaration order of `entries.rs`. -/
def parseEocdBody (s0 : List Nat) :
    Option (EndOfCentralDirectoryRecord × List Nat) :=
  match read_n 2 s0 with
  | none => none
  | some (dnb, s1) =>
  match read_n 2 s1 with
  | none => none
  | some (dncb, s2) =>
  match read_n 2 s2 with
  | none => none
  | some (deb, s3) =>
  match read_n 2 s3 with
  | none => none
  | some (teb, s4) =>
  match read_n 4 s4 with
  | none => none
  | some (cdsb, s5) =>
  match read_n 4 s5 with
  | none => none
  | some (cdob, s6) =>
  match read_n 2 s6 with
  | none => none
  | some (clb, s7) =>
  match read_n (u16le clb) s7 with
  | none => none
  | some (comment, s8) =>
  some (⟨u16le dnb, u16le dncb, u16le deb, u16le teb, u32le cdsb, u32le cdob,
    u16le clb, comment⟩, s8)

/-- One `Entry` read: the 4-byte signature, the dispatch over the three
magics, then the matched record's fields. -/
def readEntry (s : List Nat) : Except ParseErr (Entry × List Nat) :=
  match read_n 4 s with
  | none => .error .eof
  | some (m, r) =>
    if m = [80, 75, 3, 4] then
      match parseLocalFileBody r with
      | some (lf, rest) => .ok (.localFile lf, rest)
      | none => .error .truncated
    else if m = [80, 75, 1, 2] then
      match parseCentralBody r with
      | some (c, rest) => .ok (.centralDirectoryFileHeader c, rest)
      | none => .error .truncated
    else if m = [80, 75, 5, 6] then
      match parseEocdBody r with
      | some (e, rest) => .ok (.endOfCentralDirectoryRecord e, rest)
      | none => .error .truncated
    else .error (.badMagic m)

/-- The `until_eof` collection loop, fuel-structural; the fuel only serves
termination and `readEntriesFuel (s.length + 1) s` never exhausts it, since a
successful `readEntry` consumes at least the four signature bytes. -/
def readEntriesFuel : Nat → List Nat → Except ParseErr (List Entry)
  | 0, _ => .error .truncated
  | f + 1, s =>
    match readEntry s with
    | .error .eof => .ok []
    | .error e => .error e
    | .ok (e, rest) => (readEntriesFuel f rest).map (fun l => e :: l)

/-- `Entries` (`src/lib/src/entries.rs`): all records of the stream,
collected `until_eof`. -/
def readEntries (s : List Nat) : Except ParseErr (List Entry) :=
  readEntriesFuel (s.length + 1) s

/-- `Zip` from `src/lib/src/zip.rs` (the `path` field, pure I/O context,
is not part of the decoded data and is dropped). -/
structure Zip where
  entries : List Entry
deriving DecidableEq

/-- Modelled from the spec: the message of the error `Zip::process` returns
for a short read after a matched signature (`TruncatedInput` in the spec's
taxonomy).  The concrete text is `binrw`'s `EnumErrors` display rendering,
which lives outside this repository; no claim depends on the exact text. -/
def truncatedInputMsg : String := "TruncatedInput"

/-- `Zip::process` from `src/lib/src/zip.rs`: decode all records; an empty
record list is `Unexpected end of file`; when every variant failed on a bad
magic, report the offending bytes via `magic_hex`; otherwise surface the
decode error. -/
def Zip.process (s : List Nat) : Except String Zip :=
  match readEntries s with
  | .ok l => if l.isEmpty then .error "Unexpected end of file" else .ok ⟨l⟩
  | .error (.badMagic m) =>
    .error ("Invalid signature: `" ++ magic_hex (magicDebug m) ++ "`")
  | .error _ => .error truncatedInputMsg

/-! ### The output methods of `src/lib/src/entries.rs` and `src/lib/src/zip.rs`

Every `std::str::from_utf8(..).unwrap()` of the source is modelled by a
`fromUtf8` match whose `none` case makes the renderer return `none`
(the panic of the firing `unwrap`). -/

/-- `file_name.ends_with(b"/")`. -/
def endsWithSlash (bs : List Nat) : Bool := decide (bs.getLast? = some 47)

/-- `DataDescriptor::verbose` from `src/lib/src/entries.rs`. -/
def DataDescriptor.verbose (d : DataDescriptor) : String :=
  "\x7b\n    crc32 = 0x" ++ hexPad 8 d.crc32 ++ " (" ++ decStr d.crc32 ++
  ")\n    compressed_size = 0x" ++ hexPad 8 d.compressed_size ++ " (" ++
  decStr d.compressed_size ++
  ")\n    uncompressed_size = 0x" ++ hexPad 8 d.uncompressed_size ++ " (" ++
  decStr d.uncompressed_size ++ ")\n\x7d\n"

/-- `LocalFile::verbose` from `src/lib/src/entries.rs`. -/
def LocalFile.verbose (lf : LocalFile) : Option String :=
  match fromUtf8 lf.file_name with
  | none => none
  | some nameS =>
    some ("sig = 0x504b0304 (Local file header)\n" ++
      "version = 0x" ++ hexPad 4 lf.version ++ " (" ++ decStr lf.version ++ ")\n" ++
      "flags = 0x" ++ hexPad 4 lf.flags ++ " (" ++ decStr lf.flags ++ ")\n" ++
      "compression = 0x" ++ hexPad 4 lf.compression ++ " (" ++
        decStr lf.compression ++ ")\n" ++
      "mod_time = 0x" ++ hexPad 4 lf.mod_time ++ " (" ++
        tuple3Debug (Zp.mod_time lf.mod_time).1 ++ ")\n" ++
      "mod_date = 0x" ++ hexPad 4 lf.mod_date ++ " (" ++
        tuple3Debug (Zp.mod_date lf.mod_date).1 ++ ")\n" ++
      "crc32 = 0x" ++ hexPad 8 lf.crc32 ++ " (" ++ decStr lf.crc32 ++ ")\n" ++
      "compressed_size = 0x" ++ hexPad 8 lf.compressed_size ++ " (" ++
        decStr lf.compressed_size ++ ")\n" ++
      "uncompressed_size = 0x" ++ hexPad 8 lf.uncompressed_size ++ " (" ++
        decStr lf.uncompressed_size ++ ")\n" ++
      "file_name_length = 0x" ++ hexPad 4 lf.file_name_length ++ " (" ++
        decStr lf.file_name_length ++ ")\n" ++
      "extra_field_length = 0x" ++ hexPad 4 lf.extra_field_length ++ " (" ++
        decStr lf.extra_field_length ++ ")\n" ++
      "file_name = " ++ rustDebugStr (hex_encode lf.file_name) ++ " (" ++
        rustDebugStr nameS ++ ")\n" ++
      "extra_field = " ++ rustDebugStr (hex_encode lf.extra_field) ++ "\n" ++
      "file_data = " ++ rustDebugStr (hex_encode lf.file_data) ++ "\n" ++
      "data_descriptor = " ++
        (match lf.data_descriptor with
          | some d => d.verbose
          | none => "None") ++ "\n")

/-- `CentralDirectoryFileHeader::verbose` from `src/lib/src/entries.rs`. -/
def CentralDirectoryFileHeader.verbose (c : CentralDirectoryFileHeader) :
    Option String :=
  match fromUtf8 c.file_name with
  | none => none
  | some nameS =>
  match fromUtf8 c.file_comment with
  | none => none
  | some comS =>
    some ("sig = 0x504b0102 (Central directory file header)\n" ++
      "version = 0x" ++ hexPad 4 c.version ++ " (" ++ decStr c.version ++ ")\n" ++
      "version_needed = 0x" ++ hexPad 4 c.version_needed ++ " (" ++
        decStr c.version_needed ++ ")\n" ++
      "flags = 0x" ++ hexPad 4 c.flags ++ " (" ++ decStr c.flags ++ ")\n" ++
      "compression = 0x" ++ hexPad 4 c.compression ++ " (" ++
        decStr c.compression ++ ")\n" ++
      "mod_time = 0x" ++ hexPad 4 c.mod_time ++ " (" ++
        tuple3Debug (Zp.mod_time c.mod_time).1 ++ ")\n" ++
      "mod_date = 0x" ++ hexPad 4 c.mod_date ++ " (" ++
        tuple3Debug (Zp.mod_date c.mod_date).1 ++ ")\n" ++
      "crc32 = 0x" ++ hexPad 8 c.crc32 ++ " (" ++ decStr c.crc32 ++ ")\n" ++
      "compressed_size = 0x" ++ hexPad 8 c.compressed_size ++ " (" ++
        decStr c.compressed_size ++ ")\n" ++
      "uncompressed_size = 0x" ++ hexPad 8 c.uncompressed_size ++ " (" ++
        decStr c.uncompressed_size ++ ")\n" ++
      "file_name_length = 0x" ++ hexPad 4 c.file_name_length ++ " (" ++
        decStr c.file_name_length ++ ")\n" ++
      "extra_field_length = 0x" ++ hexPad 4 c.extra_field_length ++ " (" ++
        decStr c.extra_field_length ++ ")\n" ++
      "file_comment_length = 0x" ++ hexPad 4 c.file_comment_length ++ " (" ++
        decStr c.file_comment_length ++ ")\n" ++
      "disk_number_start = 0x" ++ hexPad 4 c.disk_number_start ++ " (" ++
        decStr c.disk_number_start ++ ")\n" ++
      "internal_file_attributes = 0x" ++ hexPad 4 c.internal_file_attributes ++
        " (" ++ decStr c.internal_file_attributes ++ ")\n" ++
      "external_file_attributes = 0x" ++ hexPad 8 c.external_file_attributes ++
        " (" ++ decStr c.external_file_attributes ++ ")\n" ++
      "lfh_offset = 0x" ++ hexPad 8 c.lfh_offset ++ " (" ++
        decStr c.lfh_offset ++ ")\n" ++
      "file_name = " ++ rustDebugStr (hex_encode c.file_name) ++ " (" ++
        rustDebugStr nameS ++ ")\n" ++
      "extra_field = " ++ rustDebugStr (hex_encode c.extra_field) ++ "\n" ++
      "file_comment = " ++ rustDebugStr (hex_encode c.file_comment) ++ " (" ++
        rustDebugStr comS ++ ")\n")

/-- `CentralDirectoryFileHeader::summary` from `src/lib/src/entries.rs`:
one tab-separated line per header. -/
def CentralDirectoryFileHeader.summary (c : CentralDirectoryFileHeader) :
    Option String :=
  match fromUtf8 c.file_name with
  | none => none
  | some nameS =>
  match fromUtf8 c.file_comment with
  | none => none
  | some comS =>
    some (nameS ++ "\t" ++ boolStr (endsWithSlash c.file_name) ++ "\t" ++
      decStr c.uncompressed_size ++ "\t" ++
      decPad 4 (Zp.mod_date c.mod_date).1.1 ++ "-" ++
      decPad 2 (Zp.mod_date c.mod_date).1.2.1 ++ "-" ++
      decPad 2 (Zp.mod_date c.mod_date).1.2.2 ++ "T" ++
      decPad 2 (Zp.mod_time c.mod_time).1.1 ++ ":" ++
      decPad 2 (Zp.mod_time c.mod_time).1.2.1 ++ ":" ++
      decPad 2 (Zp.mod_time c.mod_time).1.2.2 ++ "\t" ++ comS ++ "\n")

/-- `EndOfCentralDirectoryRecord::verbose` from `src/lib/src/entries.rs`. -/
def EndOfCentralDirectoryRecord.verbose (e : EndOfCentralDirectoryRecord) :
    Option String :=
  match fromUtf8 e.zip_file_comment with
  | none => none
  | some comS =>
    some ("sig = 0x504b0506 (End of central directory record)\n" ++
      "disk_number = 0x" ++ hexPad 4 e.disk_number ++ " (" ++
        decStr e.disk_number ++ ")\n" ++
      "disk_number_w_cd = 0x" ++ hexPad 4 e.disk_number_w_cd ++ " (" ++
        decStr e.disk_number_w_cd ++ ")\n" ++
      "disk_entries = 0x" ++ hexPad 4 e.disk_entries ++ " (" ++
        decStr e.disk_entries ++ ")\n" ++
      "total_entries = 0x" ++ hexPad 4 e.total_entries ++ " (" ++
        decStr e.total_entries ++ ")\n" ++
      "cd_size = 0x" ++ hexPad 8 e.cd_size ++ " (" ++ decStr e.cd_size ++ ")\n" ++
      "cd_offset = 0x" ++ hexPad 8 e.cd_offset ++ " (" ++
        decStr e.cd_offset ++ ")\n" ++
      "comment_length = 0x" ++ hexPad 4 e.comment_length ++ " (" ++
        decStr e.comment_length ++ ")\n" ++
      "zip_file_comment = " ++ rustDebugStr (hex_encode e.zip_file_comment) ++
        " (" ++ rustDebugStr comS ++ ")\n")

/-- Dispatch of `Zip::verbose`'s match over the entry variants. -/
def verboseEntry : Entry → Option String
  | .localFile i => i.verbose
  | .centralDirectoryFileHeader i => i.verbose
  | .endOfCentralDirectoryRecord i => i.verbose

/-- The `Zip::verbose` loop body: the rendering of each entry, in order. -/
def verboseList : List Entry → Option (List String)
  | [] => some []
  | e :: r =>
    match verboseEntry e with
    | none => none
    | some v => (verboseList r).map (fun l => v :: l)

/-- `Zip::verbose` from `src/lib/src/zip.rs`: a `---` separator before each
entry and a final `---`-framed `EOF` marker. -/
def Zip.verbose (z : Zip) : Option String :=
  (verboseList z.entries).map
    (fun l => String.join (l.map (fun v => "---\n" ++ v)) ++ "---\nEOF\n---\n")

/-- The `Zip::summary` loop body: one line per
`CentralDirectoryFileHeader`, every other variant skipped. -/
def summaryList : List Entry → Option (List String)
  | [] => some []
  | .centralDirectoryFileHeader c :: r =>
    match c.summary with
    | none => none
    | some v => (summaryList r).map (fun l => v :: l)
  | _ :: r => summaryList r

/-- `Zip::summary` from `src/lib/src/zip.rs`. -/
def Zip.summary (z : Zip) : Option String := (summaryList z.entries).map String.join

/-- `Zip::output` from `src/lib/src/zip.rs`. -/
def Zip.output (z : Zip) (verbose : Bool) : Option String :=
  if verbose then z.verbose else z.summary

/-- The observable outcome of a whole run: the `Ok` text, the `Err` text, or
a panic (an `unwrap()` firing, which in Rust is neither `Ok` nor `Err`). -/
inductive ROutcome where
  | ok : String → ROutcome
  | err : String → ROutcome
  | panicked : ROutcome
deriving DecidableEq

/-- `process` from `src/lib/src/functions.rs`:
`Zip::process(r)?.output(verbose)`. -/
def process (s : List Nat) (verbose : Bool) : ROutcome :=
  match Zip.process s with
  | .error e => .err e
  | .ok z =>
    match z.output verbose with
    | none => .panicked
    | some t => .ok t

/-! ### The historical snapshot: the private `process` of `src/lib/src/lib.rs`

One hand-written loop that decodes and renders at once: per iteration it
reads the 4-byte signature big-endian (a failed signature read is EOF and
ends the loop), dispatches on the value, reads that record's fields with
`read_u16le`/`read_u32le`/`read_n` and pushes output strings as it goes.
Field reads after the signature propagate `failed to fill whole buffer`;
`from_utf8(..).unwrap()` panics surface as `panicked`.  Note two structural
differences from the current pipeline: the end-of-central-directory branch
stops after `comment_length` (it never reads the comment bytes), and the
data descriptor is rendered as the `Debug` form of an `Option` of a tuple. -/

/-- How one record handler of the snapshot loop ends early: a failed
`read_exact` (`Err`) or a firing `unwrap` (panic). -/
inductive SnapErr where
  | readFail : SnapErr
  | panicked : SnapErr
deriving DecidableEq

/-- `{:?}` on `Option<(u32, u32, u32)>`, the snapshot's rendering of the
data descriptor. -/
def optTuple3Debug : Option (Nat × Nat × Nat) → String
  | some t => "Some(" ++ tuple3Debug t ++ ")"
  | none => "None"

/-- The `0x504b0304` branch of the snapshot loop: the local-file-header
field reads, with the verbose pushes of each field in source order.  The
`if vb` guards around `fromUtf8` reproduce that the snapshot only unwraps
`file_name` inside its `if verbose` block. -/
def snapLocalFile (r0 : List Nat) (vb : Bool) :
    Except SnapErr (List String × List Nat) :=
  match read_n 2 r0 with
  | none => .error .readFail
  | some (vrb, r1) =>
  match read_n 2 r1 with
  | none => .error .readFail
  | some (flb, r2) =>
  match read_n 2 r2 with
  | none => .error .readFail
  | some (cb, r3) =>
  match read_n 2 r3 with
  | none => .error .readFail
  | some (mtb, r4) =>
  match read_n 2 r4 with
  | none => .error .readFail
  | some (mdb, r5) =>
  match read_n 4 r5 with
  | none => .error .readFail
  | some (crcb, r6) =>
  match read_n 4 r6 with
  | none => .error .readFail
  | some (csb, r7) =>
  match read_n 4 r7 with
  | none => .error .readFail
  | some (usb, r8) =>
  match read_n 2 r8 with
  | none => .error .readFail
  | some (fnlb, r9) =>
  match read_n 2 r9 with
  | none => .error .readFail
  | some (eflb, r10) =>
  match read_n (u16le fnlb) r10 with
  | none => .error .readFail
  | some (name, r11) =>
  match (if vb then fromUtf8 name else some "") with
  | none => .error .panicked
  | some nameS =>
  match read_n (u16le eflb) r11 with
  | none => .error .readFail
  | some (extra, r12) =>
  match read_n (u32le csb) r12 with
  | none => .error .readFail
  | some (dat, r13) =>
  match
    (if u16le flb &&& 8 ≠ 0 then
      match read_n 4 r13 with
      | none => none
      | some (d1, r14) =>
      match read_n 4 r14 with
      | none => none
      | some (d2, r15) =>
      match read_n 4 r15 with
      | none => none
      | some (d3, r16) => some (some (u32le d1, u32le d2, u32le d3), r16)
    else some (none, r13)) with
  | none => .error .readFail
  | some (dd, r17) =>
    .ok
      (if vb then
        ["sig = 0x504b0304 (Local file header)\n",
         "version = 0x" ++ hexPad 4 (u16le vrb) ++ " (" ++ decStr (u16le vrb) ++ ")\n",
         "flags = 0x" ++ hexPad 4 (u16le flb) ++ " (" ++ decStr (u16le flb) ++ ")\n",
         "compression = 0x" ++ hexPad 4 (u16le cb) ++ " (" ++ decStr (u16le cb) ++ ")\n",
         "mod_time = 0x" ++ hexPad 4 (mod_time (u16le mtb)).2 ++ " (" ++
           tuple3Debug (mod_time (u16le mtb)).1 ++ ")\n",
         "mod_date = 0x" ++ hexPad 4 (mod_date (u16le mdb)).2 ++ " (" ++
           tuple3Debug (mod_date (u16le mdb)).1 ++ ")\n",
         "crc32 = 0x" ++ hexPad 8 (u32le crcb) ++ " (" ++ decStr (u32le crcb) ++ ")\n",
         "compressed_size = 0x" ++ hexPad 8 (u32le csb) ++ " (" ++
           decStr (u32le csb) ++ ")\n",
         "uncompressed_size = 0x" ++ hexPad 8 (u32le usb) ++ " (" ++
           decStr (u32le usb) ++ ")\n",
         "file_name_length = 0x" ++ hexPad 4 (u16le fnlb) ++ " (" ++
           decStr (u16le fnlb) ++ ")\n",
         "extra_field_length = 0x" ++ hexPad 4 (u16le eflb) ++ " (" ++
           decStr (u16le eflb) ++ ")\n",
         "file_name = " ++ rustDebugStr (hex_encode name) ++ " (" ++
           rustDebugStr nameS ++ ")\n",
         "extra_field = " ++ rustDebugStr (hex_encode extra) ++ "\n",
         "file_data = " ++ rustDebugStr (hex_encode dat) ++ "\n",
         "data_descriptor = " ++ optTuple3Debug dd ++ "\n"]
      else [], r17)

/-- The `0x504b0102` branch of the snapshot loop: the
central-directory-file-header field reads, the verbose pushes, and the
summary line (pushed, with its two unwraps, only when not verbose). -/
def snapCentral (r0 : List Nat) (vb : Bool) :
    Except SnapErr (List String × List Nat) :=
  match read_n 2 r0 with
  | none => .error .readFail
  | some (vrb, r1) =>
  match read_n 2 r1 with
  | none => .error .readFail
  | some (vnb, r2) =>
  match read_n 2 r2 with
  | none => .error .readFail
  | some (flb, r3) =>
  match read_n 2 r3 with
  | none => .error .readFail
  | some (cb, r4) =>
  match read_n 2 r4 with
  | none => .error .readFail
  | some (mtb, r5) =>
  match read_n 2 r5 with
  | none => .error .readFail
  | some (mdb, r6) =>
  match read_n 4 r6 with
  | none => .error .readFail
  | some (crcb, r7) =>
  match read_n 4 r7 with
  | none => .error .readFail
  | some (csb, r8) =>
  match read_n 4 r8 with
  | none => .error .readFail
  | some (usb, r9) =>
  match read_n 2 r9 with
  | none => .error .readFail
  | some (fnlb, r10) =>
  match read_n 2 r10 with
  | none => .error .readFail
  | some (eflb, r11) =>
  match read_n 2 r11 with
  | none => .error .readFail
  | some (fclb, r12) =>
  match read_n 2 r12 with
  | none => .error .readFail
  | some (dnsb, r13) =>
  match read_n 2 r13 with
  | none => .error .readFail
  | some (ifab, r14) =>
  match read_n 4 r14 with
  | none => .error .readFail
  | some (efab, r15) =>
  match read_n 4 r15 with
  | none => .error .readFail
  | some (lfhb, r16) =>
  match read_n (u16le fnlb) r16 with
  | none => .error .readFail
  | some (name, r17) =>
  match (if vb then fromUtf8 name else some "") with
  | none => .error .panicked
  | some nameS =>
  match read_n (u16le eflb) r17 with
  | none => .error .readFail
  | some (extra, r18) =>
  match read_n (u16le fclb) r18 with
  | none => .error .readFail
  | some (comment, r19) =>
  match (if vb then fromUtf8 comment else some "") with
  | none => .error .panicked
  | some comS =>
    if vb then
      .ok
        (["sig = 0x504b0102 (Central directory file header)\n",
          "version = 0x" ++ hexPad 4 (u16le vrb) ++ " (" ++ decStr (u16le vrb) ++ ")\n",
          "version_needed = 0x" ++ hexPad 4 (u16le vnb) ++ " (" ++
            decStr (u16le vnb) ++ ")\n",
          "flags = 0x" ++ hexPad 4 (u16le flb) ++ " (" ++ decStr (u16le flb) ++ ")\n",
          "compression = 0x" ++ hexPad 4 (u16le cb) ++ " (" ++ decStr (u16le cb) ++ ")\n",
          "mod_time = 0x" ++ hexPad 4 (mod_time (u16le mtb)).2 ++ " (" ++
            tuple3Debug (mod_time (u16le mtb)).1 ++ ")\n",
          "mod_date = 0x" ++ hexPad 4 (mod_date (u16le mdb)).2 ++ " (" ++
            tuple3Debug (mod_date (u16le mdb)).1 ++ ")\n",
          "crc32 = 0x" ++ hexPad 8 (u32le crcb) ++ " (" ++ decStr (u32le crcb) ++ ")\n",
          "compressed_size = 0x" ++ hexPad 8 (u32le csb) ++ " (" ++
            decStr (u32le csb) ++ ")\n",
          "uncompressed_size = 0x" ++ hexPad 8 (u32le usb) ++ " (" ++
            decStr (u32le usb) ++ ")\n",
          "file_name_length = 0x" ++ hexPad 4 (u16le fnlb) ++ " (" ++
            decStr (u16le fnlb) ++ ")\n",
          "extra_field_length = 0x" ++ hexPad 4 (u16le eflb) ++ " (" ++
            decStr (u16le eflb) ++ ")\n",
          "file_comment_length = 0x" ++ hexPad 4 (u16le fclb) ++ " (" ++
            decStr (u16le fclb) ++ ")\n",
          "disk_number_start = 0x" ++ hexPad 4 (u16le dnsb) ++ " (" ++
            decStr (u16le dnsb) ++ ")\n",
          "internal_file_attributes = 0x" ++ hexPad 4 (u16le ifab) ++ " (" ++
            decStr (u16le ifab) ++ ")\n",
          "external_file_attributes = 0x" ++ hexPad 8 (u32le efab) ++ " (" ++
            decStr (u32le efab) ++ ")\n",
          "lfh_offset = 0x" ++ hexPad 8 (u32le lfhb) ++ " (" ++
            decStr (u32le lfhb) ++ ")\n",
          "file_name = " ++ rustDebugStr (hex_encode name) ++ " (" ++
            rustDebugStr nameS ++ ")\n",
          "extra_field = " ++ rustDebugStr (hex_encode extra) ++ "\n",
          "file_comment = " ++ rustDebugStr (hex_encode comment) ++ " (" ++
            rustDebugStr comS ++ ")\n"], r19)
    else
      match fromUtf8 name with
      | none => .error .panicked
      | some nameT =>
      match fromUtf8 comment with
      | none => .error .panicked
      | some comT =>
        .ok
          ([nameT ++ "\t" ++ boolStr (endsWithSlash name) ++ "\t" ++
            decStr (u32le usb) ++ "\t" ++
            decPad 4 (mod_date (u16le mdb)).1.1 ++ "-" ++
            decPad 2 (mod_date (u16le mdb)).1.2.1 ++ "-" ++
            decPad 2 (mod_date (u16le mdb)).1.2.2 ++ "T" ++
            decPad 2 (mod_time (u16le mtb)).1.1 ++ ":" ++
            decPad 2 (mod_time (u16le mtb)).1.2.1 ++ ":" ++
            decPad 2 (mod_time (u16le mtb)).1.2.2 ++ "\t" ++ comT ++ "\n"], r19)

/-- The `0x504b0506` branch of the snapshot loop: it reads the fixed fields
through `comment_length` and stops — the comment bytes themselves are never
read (unlike `entries.rs`), so they stay in the stream. -/
def snapEocd (r0 : List Nat) (vb : Bool) :
    Except SnapErr (List String × List Nat) :=
  match read_n 2 r0 with
  | none => .error .readFail
  | some (dnb, r1) =>
  match read_n 2 r1 with
  | none => .error .readFail
  | some (dncb, r2) =>
  match read_n 2 r2 with
  | none => .error .readFail
  | some (deb, r3) =>
  match read_n 2 r3 with
  | none => .error .readFail
  | some (teb, r4) =>
  match read_n 4 r4 with
  | none => .error .readFail
  | some (cdsb, r5) =>
  match read_n 4 r5 with
  | none => .error .readFail
  | some (cdob, r6) =>
  match read_n 2 r6 with
  | none => .error .readFail
  | some (clb, r7) =>
    .ok
      (if vb then
        ["sig = 0x504b0506 (End of central directory record)\n",
         "disk_number = 0x" ++ hexPad 4 (u16le dnb) ++ " (" ++
           decStr (u16le dnb) ++ ")\n",
         "disk_number_w_cd = 0x" ++ hexPad 4 (u16le dncb) ++ " (" ++
           decStr (u16le dncb) ++ ")\n",
         "disk_entries = 0x" ++ hexPad 4 (u16le deb) ++ " (" ++
           decStr (u16le deb) ++ ")\n",
         "total_entries = 0x" ++ hexPad 4 (u16le teb) ++ " (" ++
           decStr (u16le teb) ++ ")\n",
         "cd_size = 0x" ++ hexPad 8 (u32le cdsb) ++ " (" ++
           decStr (u32le cdsb) ++ ")\n",
         "cd_offset = 0x" ++ hexPad 8 (u32le cdob) ++ " (" ++
           decStr (u32le cdob) ++ ")\n",
         "comment_length = 0x" ++ hexPad 4 (u16le clb) ++ " (" ++
           decStr (u16le clb) ++ ")\n"]
      else [], r7)

/-- The result of the snapshot loop: the pushed strings, an early `Err`, or
a panic. -/
inductive SnapRes where
  | strs : List String → SnapRes
  | err : String → SnapRes
  | panicked : SnapRes
deriving DecidableEq

/-- The snapshot `loop`, fuel-structural (the fuel only serves termination:
every iteration that continues consumed at least the four signature bytes).
The `---` separator precedes every iteration in verbose mode, including the
final one, which appends `EOF` and a closing separator when the signature
read fails. -/
def snapLoopF : Nat → List Nat → Bool → SnapRes
  | 0, _, _ => .err "out of fuel"
  | f + 1, s, vb =>
    let pre : List String := if vb then ["---\n"] else []
    match read_n 4 s with
    | none => .strs (pre ++ (if vb then ["EOF\n---\n"] else []))
    | some (m, r) =>
      let sig := u32be m
      if sig = 0x504b0304 then
        match snapLocalFile r vb with
        | .error .readFail => .err "failed to fill whole buffer"
        | .error .panicked => .panicked
        | .ok (strs, rest) =>
          match snapLoopF f rest vb with
          | .strs l => .strs (pre ++ strs ++ l)
          | x => x
      else if sig = 0x504b0102 then
        match snapCentral r vb with
        | .error .readFail => .err "failed to fill whole buffer"
        | .error .panicked => .panicked
        | .ok (strs, rest) =>
          match snapLoopF f rest vb with
          | .strs l => .strs (pre ++ strs ++ l)
          | x => x
      else if sig = 0x504b0506 then
        match snapEocd r vb with
        | .error .readFail => .err "failed to fill whole buffer"
        | .error .panicked => .panicked
        | .ok (strs, rest) =>
          match snapLoopF f rest vb with
          | .strs l => .strs (pre ++ strs ++ l)
          | x => x
      else .err ("Invalid signature: `" ++ hexPad 8 sig ++ "`")

namespace Snapshot

/-- The snapshot `process` from `src/lib/src/lib.rs`: run the loop, join the
pushed strings, and reject a run whose whole output is the bare
`---`-framed `EOF` marker (`Unexpected end of file`). -/
def process (s : List Nat) (vb : Bool) : ROutcome :=
  match snapLoopF (s.length + 1) s vb with
  | .err e => .err e
  | .panicked => .panicked
  | .strs l =>
    let t := String.join l
    if t = "---\nEOF\n---\n" then .err "Unexpected end of file" else .ok t

end Snapshot

/-! ### Demonstration streams used by the witnesses -/

/-- A minimal well-formed end-of-central-directory record: its magic and
eighteen zero bytes (all fixed fields zero, so no trailing comment). -/
def eocdBytes : List Nat := [80, 75, 5, 6] ++ List.replicate 18 0

/-- The record the bytes of `eocdBytes` decode to. -/
def eocdRecord : EndOfCentralDirectoryRecord := ⟨0, 0, 0, 0, 0, 0, 0, []⟩

/-- A stream whose second record is truncated: a local-file-header magic
followed by a single byte. -/
def truncDemo : List Nat := eocdBytes ++ [80, 75, 3, 4, 0]

/-- The central-directory projection `Zip::summary` filters by. -/
def centralOf : Entry → Option CentralDirectoryFileHeader
  | .centralDirectoryFileHeader c => some c
  | _ => none

/-- The content one summary line must have for its header, spelled out from
the spec (section 4.3): file name, directory flag (name ends in a slash),
uncompressed size, `YYYY-MM-DDThh:mm:ss`, file comment, tab-separated. -/
def summaryLineSpec (c : CentralDirectoryFileHeader) (l : String) : Prop :=
  ∃ nameS comS, fromUtf8 c.file_name = some nameS ∧
    fromUtf8 c.file_comment = some comS ∧
    l = nameS ++ "\t" ++ boolStr (endsWithSlash c.file_name) ++ "\t" ++
      decStr c.uncompressed_size ++ "\t" ++
      decPad 4 (mod_date c.mod_date).1.1 ++ "-" ++
      decPad 2 (mod_date c.mod_date).1.2.1 ++ "-" ++
      decPad 2 (mod_date c.mod_date).1.2.2 ++ "T" ++
      decPad 2 (mod_time c.mod_time).1.1 ++ ":" ++
      decPad 2 (mod_time c.mod_time).1.2.1 ++ ":" ++
      decPad 2 (mod_time c.mod_time).1.2.2 ++ "\t" ++ comS ++ "\n"

/-- A central directory header whose `file_name` is `a/`, all other fields
zero or empty; used by the witnesses. -/
def centralDemo : CentralDirectoryFileHeader :=
  ⟨0, 0, 0, 0, 0, 0, 0, 0, 0, 2, 0, 0, 0, 0, 0, 0, [97, 47], [], []⟩

/-- The byte stream `centralDemo` decodes from. -/
def centralDemoBytes : List Nat :=
  [80, 75, 1, 2] ++ enc16 0 ++ enc16 0 ++ enc16 0 ++ enc16 0 ++ enc16 0 ++
  enc16 0 ++ enc32 0 ++ enc32 0 ++ enc32 0 ++ enc16 2 ++ enc16 0 ++ enc16 0 ++
  enc16 0 ++ enc16 0 ++ enc32 0 ++ enc32 0 ++ [97, 47]

/-- A central directory header whose one-byte `file_name` `0xff` is not
valid UTF-8. -/
def badNameCentral : CentralDirectoryFileHeader :=
  ⟨0, 0, 0, 0, 0, 0, 0, 0, 0, 1, 0, 0, 0, 0, 0, 0, [255], [], []⟩

/-- The byte stream `badNameCentral` decodes from. -/
def badNameCentralBytes : List Nat :=
  [80, 75, 1, 2] ++ enc16 0 ++ enc16 0 ++ enc16 0 ++ enc16 0 ++ enc16 0 ++
  enc16 0 ++ enc32 0 ++ enc32 0 ++ enc32 0 ++ enc16 1 ++ enc16 0 ++ enc16 0 ++
  enc16 0 ++ enc16 0 ++ enc32 0 ++ enc32 0 ++ [255]

/-- The `file_name` line of the verbose renderings: lowercase hex of the
bytes, then the decoded text, both in `Debug` quotes. -/
def fileNameLine (bs : List Nat) (nameS : String) : String :=
  "file_name = " ++ rustDebugStr (hex_encode bs) ++ " (" ++ rustDebugStr nameS ++ ")\n"

/-- The `file_comment` line of the central-directory verbose rendering. -/
def fileCommentLine (bs : List Nat) (comS : String) : String :=
  "file_comment = " ++ rustDebugStr (hex_encode bs) ++ " (" ++ rustDebugStr comS ++ ")\n"

/-- The `zip_file_comment` line of the end-record verbose rendering. -/
def zipCommentLine (bs : List Nat) (comS : String) : String :=
  "zip_file_comment = " ++ rustDebugStr (hex_encode bs) ++ " (" ++ rustDebugStr comS ++ ")\n"

/-- A local file header with one-byte name `a`, no data, no descriptor;
used by the witnesses. -/
def localDemo : LocalFile := ⟨0, 0, 0, 0, 0, 0, 0, 0, 1, 0, [97], [], [], none⟩

/-- The verbose text of `localDemo` (its rendering is `some`, so the
default never fires). -/
def localDemoVerboseOut : String := (LocalFile.verbose localDemo).getD ""

/-- Well-formedness of a central directory header as written to bytes: all
scalar fields fit their wire width and the three length fields agree with
their byte lists. -/
def WFCentral (c : CentralDirectoryFileHeader) : Prop :=
  c.version < 65536 ∧ c.version_needed < 65536 ∧ c.flags < 65536 ∧
  c.compression < 65536 ∧ c.mod_time < 65536 ∧ c.mod_date < 65536 ∧
  c.crc32 < 4294967296 ∧ c.compressed_size < 4294967296 ∧
  c.uncompressed_size < 4294967296 ∧
  c.file_name_length = c.file_name.length ∧ c.file_name.length < 65536 ∧
  c.extra_field_length = c.extra_field.length ∧ c.extra_field.length < 65536 ∧
  c.file_comment_length = c.file_comment.length ∧ c.file_comment.length < 65536 ∧
  c.disk_number_start < 65536 ∧ c.internal_file_attributes < 65536 ∧
  c.external_file_attributes < 4294967296 ∧ c.lfh_offset < 4294967296

instance (c : CentralDirectoryFileHeader) : Decidable (WFCentral c) := by
  unfold WFCentral
  infer_instance

/-- The wire bytes of a central directory header after its magic. -/
def encodeCentralBody (c : CentralDirectoryFileHeader) : List Nat :=
  enc16 c.version ++ enc16 c.version_needed ++ enc16 c.flags ++
  enc16 c.compression ++ enc16 c.mod_time ++ enc16 c.mod_date ++
  enc32 c.crc32 ++ enc32 c.compressed_size ++ enc32 c.uncompressed_size ++
  enc16 c.file_name_length ++ enc16 c.extra_field_length ++
  enc16 c.file_comment_length ++ enc16 c.disk_number_start ++
  enc16 c.internal_file_attributes ++ enc32 c.external_file_attributes ++
  enc32 c.lfh_offset ++ c.file_name ++ c.extra_field ++ c.file_comment

/-- The wire bytes of a central directory header, magic included. -/
def encodeCentral (c : CentralDirectoryFileHeader) : List Nat :=
  [80, 75, 1, 2] ++ encodeCentralBody c

/-- A stream that is a concatenation of central directory headers. -/
def encodeCentrals (cs : List CentralDirectoryFileHeader) : List Nat :=
  (cs.map encodeCentral).flatten

/-- An end record carrying a 4-byte comment `aaaa`: its comment_length
field is 4 and the four comment bytes follow.  The current pipeline reads
the comment; the snapshot loop never does. -/
def eocdCommentDemo : List Nat :=
  [80, 75, 5, 6] ++ List.replicate 16 0 ++ [4, 0] ++ [97, 97, 97, 97]

/-! ### Basic lemmas about the byte reads and the decode loops -/

theorem read_n_some_iff {n : Nat} {s : List Nat} {p : List Nat × List Nat} :
    read_n n s = some p ↔ n ≤ s.length ∧ p = (s.take n, s.drop n) := by
  unfold read_n
  split <;> simp_all [eq_comm]

theorem read_n_none_iff {n : Nat} {s : List Nat} :
    read_n n s = none ↔ s.length < n := by
  unfold read_n
  split <;> simp <;> omega

theorem read_n_append {a b : List Nat} : read_n a.length (a ++ b) = some (a, b) := by
  simp [read_n, List.take_left, List.drop_left]

theorem read_n_append' {n : Nat} {a b : List Nat} (h : a.length = n) :
    read_n n (a ++ b) = some (a, b) := h ▸ read_n_append

theorem parseLocalFileBody_len {s0 : List Nat} {p : LocalFile × List Nat}
    (h : parseLocalFileBody s0 = some p) : p.2.length ≤ s0.length := by
  unfold parseLocalFileBody at h
  repeat' (first | split at h | exact Option.noConfusion h)
  all_goals injection h with h
  all_goals subst h
  all_goals simp_all only [read_n_some_iff, List.length_drop, Prod.mk.injEq, true_and]
  all_goals omega

theorem parseCentralBody_len {s0 : List Nat}
    {p : CentralDirectoryFileHeader × List Nat}
    (h : parseCentralBody s0 = some p) : p.2.length ≤ s0.length := by
  unfold parseCentralBody at h
  repeat' (first | split at h | exact Option.noConfusion h)
  all_goals injection h with h
  all_goals subst h
  all_goals simp_all only [read_n_some_iff, List.length_drop, Prod.mk.injEq, true_and]
  all_goals omega

theorem parseEocdBody_len {s0 : List Nat}
    {p : EndOfCentralDirectoryRecord × List Nat}
    (h : parseEocdBody s0 = some p) : p.2.length ≤ s0.length := by
  unfold parseEocdBody at h
  repeat' (first | split at h | exact Option.noConfusion h)
  all_goals injection h with h
  all_goals subst h
  all_goals simp_all only [read_n_some_iff, List.length_drop, Prod.mk.injEq, true_and]
  all_goals omega

theorem readEntry_len {s : List Nat} {e : Entry} {rest : List Nat}
    (h : readEntry s = .ok (e, rest)) : rest.length + 4 ≤ s.length := by
  unfold readEntry at h
  split at h
  · exact Except.noConfusion h
  · rename_i m r heq
    obtain ⟨hle, hp⟩ := read_n_some_iff.mp heq
    have hr : r = s.drop 4 := congrArg Prod.snd hp
    subst hr
    split at h
    · split at h
      · rename_i lf rest2 heq2
        have hq := parseLocalFileBody_len heq2
        injection h with h
        injection h with h1 h2
        subst h2
        simp only [List.length_drop] at hq
        omega
      · exact Except.noConfusion h
    · split at h
      · split at h
        · rename_i c rest2 heq2
          have hq := parseCentralBody_len heq2
          injection h with h
          injection h with h1 h2
          subst h2
          simp only [List.length_drop] at hq
          omega
        · exact Except.noConfusion h
      · split at h
        · split at h
          · rename_i ec rest2 heq2
            have hq := parseEocdBody_len heq2
            injection h with h
            injection h with h1 h2
            subst h2
            simp only [List.length_drop] at hq
            omega
          · exact Except.noConfusion h
        · exact Except.noConfusion h

theorem readEntry_eof_iff {s : List Nat} :
    readEntry s = .error .eof ↔ s.length < 4 := by
  constructor
  · intro h
    unfold readEntry at h
    split at h
    · rename_i heq
      exact read_n_none_iff.mp heq
    · repeat' first
        | split at h
        | exact Except.noConfusion h
        | (exact absurd (Except.error.inj h) (by simp))
  · intro h
    unfold readEntry
    rw [read_n_none_iff.mpr h]

theorem readEntriesFuel_stable : ∀ f g : Nat, ∀ s : List Nat,
    s.length < f → s.length < g → readEntriesFuel f s = readEntriesFuel g s := by
  intro f
  induction f with
  | zero => intro g s hf; omega
  | succ f ih =>
    intro g s hf hg
    cases g with
    | zero => omega
    | succ g =>
      show readEntriesFuel (f + 1) s = readEntriesFuel (g + 1) s
      unfold readEntriesFuel
      cases h : readEntry s with
      | error e => cases e <;> rfl
      | ok p =>
        obtain ⟨e, rest⟩ := p
        have hlen := readEntry_len h
        show (readEntriesFuel f rest).map (fun l => e :: l) =
          (readEntriesFuel g rest).map (fun l => e :: l)
        rw [ih g rest (by omega) (by omega)]

theorem readEntries_eof {s : List Nat} (h : s.length < 4) :
    readEntries s = .ok [] := by
  unfold readEntries readEntriesFuel
  rw [readEntry_eof_iff.mpr h]

theorem readEntries_err {s : List Nat} {e : ParseErr} (hne : e ≠ .eof)
    (h : readEntry s = .error e) : readEntries s = .error e := by
  unfold readEntries readEntriesFuel
  rw [h]
  cases e with
  | eof => exact absurd rfl hne
  | badMagic m => rfl
  | truncated => rfl

theorem readEntries_cons {s : List Nat} {e : Entry} {rest : List Nat}
    (h : readEntry s = .ok (e, rest)) :
    readEntries s = (readEntries rest).map (fun l => e :: l) := by
  have hlen := readEntry_len h
  have hstable :=
    readEntriesFuel_stable s.length (rest.length + 1) rest (by omega) (by omega)
  unfold readEntries readEntriesFuel
  rw [h]
  show (readEntriesFuel s.length rest).map (fun l => e :: l) = _
  rw [hstable]
  rfl

/-! ### Lemmas for the signature-hex reporting path -/

set_option maxRecDepth 10000 in
theorem parseDec_decStr : ∀ b : Nat, b < 256 → parseDec (decStr b).data = some b := by decide

theorem splitCS_sep (r : List Char) (acc : List Char) :
    splitCS (',' :: ' ' :: r) acc = acc.reverse :: splitCS r [] := rfl

theorem splitCS_cons_ne {c : Char} (hc : c ≠ ',') (r acc : List Char) :
    splitCS (c :: r) acc = splitCS r (c :: acc) := by
  rcases r with _ | ⟨c2, r2⟩ <;> simp [splitCS, hc]

theorem inter4 (a b c d : String) :
    String.intercalate ", " [a, b, c, d] = a ++ ", " ++ b ++ ", " ++ c ++ ", " ++ d := rfl

theorem data_append (a b : String) : (a ++ b).data = a.data ++ b.data := rfl

theorem decDigitsF_notSpecial : ∀ (f n : Nat), ∀ c ∈ decDigitsF f n,
    c ≠ ',' ∧ c ≠ '[' ∧ c ≠ ']' := by
  intro f
  induction f with
  | zero => intro n c hc; simp [decDigitsF] at hc
  | succ f ih =>
    intro n c hc
    unfold decDigitsF at hc
    split at hc
    · rename_i hlt
      simp only [List.mem_singleton] at hc
      subst hc
      have : ∀ k : Nat, k < 10 →
          Char.ofNat (48 + k) ≠ ',' ∧ Char.ofNat (48 + k) ≠ '[' ∧
          Char.ofNat (48 + k) ≠ ']' := by decide
      exact this n hlt
    · rw [List.mem_append] at hc
      rcases hc with hc | hc
      · exact ih (n / 10) c hc
      · simp only [List.mem_singleton] at hc
        subst hc
        have : ∀ k : Nat, k < 10 →
            Char.ofNat (48 + k) ≠ ',' ∧ Char.ofNat (48 + k) ≠ '[' ∧
            Char.ofNat (48 + k) ≠ ']' := by decide
        exact this (n % 10) (Nat.mod_lt n (by omega))

theorem splitCS_no_comma : ∀ (piece rest acc : List Char),
    (∀ ch ∈ piece, ch ≠ ',') →
    splitCS (piece ++ rest) acc = splitCS rest (piece.reverse ++ acc) := by
  intro piece
  induction piece with
  | nil => intro rest acc h; simp
  | cons c p ih =>
    intro rest acc h
    have hc : c ≠ ',' := h c (by simp)
    show splitCS (c :: (p ++ rest)) acc = _
    rw [splitCS_cons_ne hc]
    rw [ih rest (c :: acc) (fun ch hm => h ch (by simp [hm]))]
    simp

theorem splitCS_final (l acc : List Char) (h : ∀ ch ∈ l, ch ≠ ',') :
    splitCS l acc = [acc.reverse ++ l] := by
  calc splitCS l acc = splitCS (l ++ []) acc := by simp
    _ = splitCS [] (l.reverse ++ acc) := splitCS_no_comma l [] acc h
    _ = [(l.reverse ++ acc).reverse] := rfl
    _ = [acc.reverse ++ l] := by simp

theorem filter_digits (b : Nat) :
    ((decStr b).data.filter (fun c => c ≠ '[' ∧ c ≠ ']')) = (decStr b).data := by
  rw [List.filter_eq_self]
  intro c hc
  have := decDigitsF_notSpecial (b + 1) b c hc
  simp [this.2.1, this.2.2]

theorem magic_hex_magicDebug (b0 b1 b2 b3 : Nat)
    (h0 : b0 < 256) (h1 : b1 < 256) (h2 : b2 < 256) (h3 : b3 < 256) :
    magic_hex (magicDebug [b0, b1, b2, b3]) = hex_encode [b0, b1, b2, b3] := by
  unfold magic_hex magicDebug
  rw [show [b0, b1, b2, b3].map decStr = [decStr b0, decStr b1, decStr b2, decStr b3] from rfl]
  rw [inter4]
  have hdata : ("[" ++ (decStr b0 ++ ", " ++ decStr b1 ++ ", " ++ decStr b2 ++ ", " ++ decStr b3) ++ "]").data
      = '[' :: ((decStr b0).data ++ (',' :: ' ' :: ((decStr b1).data ++ (',' :: ' ' :: ((decStr b2).data ++ (',' :: ' ' :: ((decStr b3).data ++ [']']))))))) := by
    simp [data_append]
  rw [hdata]
  have hne : ∀ b : Nat, ∀ ch ∈ (decStr b).data, ch ≠ ',' := by
    intro b ch hm
    exact (decDigitsF_notSpecial (b + 1) b ch hm).1
  have hfil : ∀ b : Nat, ((decStr b).data.filter (fun c => c ≠ '[' ∧ c ≠ ']')) = (decStr b).data :=
    filter_digits
  have hcm : decide ((',' : Char) ≠ '[' ∧ (',' : Char) ≠ ']') = true := by decide
  have hsp : decide ((' ' : Char) ≠ '[' ∧ (' ' : Char) ≠ ']') = true := by decide
  have hbr1 : decide (('[' : Char) ≠ '[' ∧ ('[' : Char) ≠ ']') = false := by decide
  have hbr2 : decide ((']' : Char) ≠ '[' ∧ (']' : Char) ≠ ']') = false := by decide
  have hff : (false = true) = False := by simp
  simp only [List.filter_cons, List.filter_append, hfil, hcm, hsp, hbr1, hbr2,
    if_true, if_false, hff, List.filter_nil, List.append_nil]
  rw [splitCS_no_comma _ _ _ (hne b0), splitCS_sep,
      splitCS_no_comma _ _ _ (hne b1), splitCS_sep,
      splitCS_no_comma _ _ _ (hne b2), splitCS_sep,
      splitCS_final _ _ (hne b3)]
  simp only [List.append_nil, List.reverse_reverse, List.reverse_nil, List.nil_append]
  simp only [List.map_cons, List.map_nil, parseDec_decStr b0 h0, parseDec_decStr b1 h1,
    parseDec_decStr b2 h2, parseDec_decStr b3 h3, Option.getD_some]
  rfl

/-! ### Round-trip lemmas: parsing an encoded record -/

theorem u16le_enc16 {n : Nat} (h : n < 65536) : u16le (enc16 n) = n := by
  show leVal (List.take 2 [n % 256, n / 256 % 256]) = n
  simp [leVal]
  omega

theorem u32le_enc32 {n : Nat} (h : n < 4294967296) : u32le (enc32 n) = n := by
  show leVal (List.take 4 [n % 256, n / 256 % 256, n / 65536 % 256, n / 16777216 % 256]) = n
  simp [leVal]
  omega

theorem read_n_enc16 (n : Nat) (b : List Nat) :
    read_n 2 (enc16 n ++ b) = some (enc16 n, b) := read_n_append' rfl

theorem read_n_enc32 (n : Nat) (b : List Nat) :
    read_n 4 (enc32 n ++ b) = some (enc32 n, b) := read_n_append' rfl

theorem read_n_magicLF (b : List Nat) :
    read_n 4 ([80, 75, 3, 4] ++ b) = some ([80, 75, 3, 4], b) := read_n_append' rfl


/-! ### The claims -/

/-- C5: `mod_time` extracts hour = bits 11–15, minute = bits 5–10,
second = 2 × bits 0–4, and `mod_date` extracts year = 1980 + bits 9–15,
month = bits 5–8, day = bits 0–4, with no range validation; in particular
`mod_time 0x48b3 = (9, 5, 38)` and `mod_date 0x5119 = (2020, 8, 25)`. -/
theorem zp_dos_time_date_bitfields :
    (∀ n : Nat, n < 65536 →
      mod_time n = ((n / 2048 % 32, n / 32 % 64, 2 * (n % 32)), n) ∧
      mod_date n = ((1980 + n / 512 % 128, n / 32 % 16, n % 32), n)) ∧
    mod_time 0x48b3 = ((9, 5, 38), 0x48b3) ∧
    mod_date 0x5119 = ((2020, 8, 25), 0x5119) := by
  refine ⟨?_, by decide, by decide⟩
  intro n hn
  have e1 : n >>> 11 = n / 2048 := by simp [Nat.shiftRight_eq_div_pow]
  have e2 : n >>> 5 = n / 32 := by simp [Nat.shiftRight_eq_div_pow]
  have e3 : n >>> 9 = n / 512 := by simp [Nat.shiftRight_eq_div_pow]
  have a63 : n / 32 &&& 63 = n / 32 % 64 := Nat.and_pow_two_sub_one_eq_mod _ 6
  have a31 : n &&& 31 = n % 32 := Nat.and_pow_two_sub_one_eq_mod _ 5
  have a15 : n / 32 &&& 15 = n / 32 % 16 := Nat.and_pow_two_sub_one_eq_mod _ 4
  unfold mod_time mod_date
  rw [e1, e2, e3, a63, a31, a15]
  simp only [Prod.mk.injEq]
  clear e1 e2 e3 a63 a31 a15
  refine ⟨⟨⟨?_, ?_, ?_⟩, trivial⟩, ⟨?_, ?_, ?_⟩, trivial⟩ <;> omega

/-- Witness for C5 at the spec's own test vectors. -/
theorem zp_dos_time_date_bitfields_witness :
    mod_time 0x48b3 = ((0x48b3 / 2048 % 32, 0x48b3 / 32 % 64, 2 * (0x48b3 % 32)), 0x48b3) ∧
    mod_date 0x5119 = ((1980 + 0x5119 / 512 % 128, 0x5119 / 32 % 16, 0x5119 % 32), 0x5119) :=
  ⟨(zp_dos_time_date_bitfields.1 0x48b3 (by decide)).1,
   (zp_dos_time_date_bitfields.1 0x5119 (by decide)).2⟩

/-- C1: once a record's 4-byte signature matched, a short read while
extracting any of its fields makes the single-record read fail `truncated`
(never end-of-stream), that failure aborts the whole `until_eof` collection
even when earlier records decoded fine, and `Zip::process` then returns the
error — no archive, not even one with the previously decoded records. -/
theorem zp_truncation_aborts_decode :
    (∀ s : List Nat, readEntry s = .error .truncated →
      readEntries s = .error .truncated) ∧
    (∀ (s : List Nat) (e : Entry) (rest : List Nat),
      readEntry s = .ok (e, rest) →
      readEntries rest = .error .truncated →
      readEntries s = .error .truncated) ∧
    (∀ s : List Nat, readEntries s = .error .truncated →
      Zip.process s = .error truncatedInputMsg) := by
  refine ⟨?_, ?_, ?_⟩
  · intro s h
    exact readEntries_err (fun hx => ParseErr.noConfusion hx) h
  · intro s e rest h ht
    rw [readEntries_cons h, ht]
    rfl
  · intro s h
    unfold Zip.process
    rw [h]

/-- Witness for C1: one good record, then a local-file magic followed by a
short field read; the whole decode errors out. -/
theorem zp_truncation_aborts_decode_witness :
    Zip.process truncDemo = .error truncatedInputMsg :=
  zp_truncation_aborts_decode.2.2 truncDemo
    (zp_truncation_aborts_decode.2.1 truncDemo
      (.endOfCentralDirectoryRecord eocdRecord) [80, 75, 3, 4, 0]
      (by rfl)
      (zp_truncation_aborts_decode.1 [80, 75, 3, 4, 0] (by rfl)))

/-- C2: a stream whose very first signature read hits end-of-stream (fewer
than four bytes, e.g. the empty stream or the single byte `0x00`) decodes to
zero records and `Zip::process` fails with `Unexpected end of file` instead
of returning an empty archive. -/
theorem zp_empty_stream_error :
    ∀ s : List Nat, s.length < 4 →
      Zip.process s = .error "Unexpected end of file" := by
  intro s h
  unfold Zip.process
  rw [readEntries_eof h]
  rfl

/-- Witness for C2 at the empty stream and the single byte `0x00`. -/
theorem zp_empty_stream_error_witness :
    Zip.process [] = .error "Unexpected end of file" ∧
    Zip.process [0] = .error "Unexpected end of file" :=
  ⟨zp_empty_stream_error [] (by decide), zp_empty_stream_error [0] (by decide)⟩



/-- C3: four bytes at any record boundary matching none of the three magics
— at the start of the stream or after previously decoded records — fail the
single-record read with `badMagic`, that failure aborts the whole `until_eof`
collection even when earlier records decoded fine, and `Zip::process` returns
an `Invalid signature` error carrying those bytes through `magic_hex` of
their `Debug` rendering — which, for genuine bytes, is their lowercase hex;
no partial archive is returned. -/
theorem zp_invalid_signature_error :
    (∀ (b0 b1 b2 b3 : Nat) (rest : List Nat),
      [b0, b1, b2, b3] ≠ [80, 75, 3, 4] →
      [b0, b1, b2, b3] ≠ [80, 75, 1, 2] →
      [b0, b1, b2, b3] ≠ [80, 75, 5, 6] →
      readEntries (b0 :: b1 :: b2 :: b3 :: rest) =
        .error (.badMagic [b0, b1, b2, b3])) ∧
    (∀ (s : List Nat) (e : Entry) (rest m : List Nat),
      readEntry s = .ok (e, rest) →
      readEntries rest = .error (.badMagic m) →
      readEntries s = .error (.badMagic m)) ∧
    (∀ s m : List Nat, readEntries s = .error (.badMagic m) →
      Zip.process s =
        .error ("Invalid signature: `" ++ magic_hex (magicDebug m) ++ "`")) ∧
    (∀ b0 b1 b2 b3 : Nat, b0 < 256 → b1 < 256 → b2 < 256 → b3 < 256 →
      magic_hex (magicDebug [b0, b1, b2, b3]) = hex_encode [b0, b1, b2, b3]) := by
  refine ⟨?_, ?_, ?_, ?_⟩
  · intro b0 b1 b2 b3 rest h1 h2 h3
    have hsplit : b0 :: b1 :: b2 :: b3 :: rest = [b0, b1, b2, b3] ++ rest := rfl
    have hread : read_n 4 (b0 :: b1 :: b2 :: b3 :: rest) = some ([b0, b1, b2, b3], rest) := by
      rw [hsplit]
      exact read_n_append' rfl
    have hre : readEntry (b0 :: b1 :: b2 :: b3 :: rest) =
        .error (.badMagic [b0, b1, b2, b3]) := by
      unfold readEntry
      rw [hread]
      simp [h1, h2, h3]
    exact readEntries_err (fun hx => ParseErr.noConfusion hx) hre
  · intro s e rest m h hm
    rw [readEntries_cons h, hm]
    rfl
  · intro s m h
    unfold Zip.process
    rw [h]
  · intro b0 b1 b2 b3 h0 h1 h2 h3
    exact magic_hex_magicDebug b0 b1 b2 b3 h0 h1 h2 h3

/-- Witness for C3 at the spec's example bytes `00 00 00 01`, placed after a
decoded end-of-central-directory record: the whole run errors with the
lowercase hex `00000001`, with no partial archive for the decoded record. -/
theorem zp_invalid_signature_error_witness :
    Zip.process (eocdBytes ++ [0, 0, 0, 1]) =
      .error ("Invalid signature: `" ++ magic_hex (magicDebug [0, 0, 0, 1]) ++ "`") ∧
    magic_hex (magicDebug [0, 0, 0, 1]) = hex_encode [0, 0, 0, 1] ∧
    magic_hex (magicDebug [0, 0, 0, 1]) = "00000001" :=
  ⟨zp_invalid_signature_error.2.2.1 (eocdBytes ++ [0, 0, 0, 1]) [0, 0, 0, 1]
      (zp_invalid_signature_error.2.1 (eocdBytes ++ [0, 0, 0, 1])
        (.endOfCentralDirectoryRecord eocdRecord) [0, 0, 0, 1] [0, 0, 0, 1]
        (by rfl)
        (zp_invalid_signature_error.1 0 0 0 1 [] (by decide) (by decide) (by decide))),
   zp_invalid_signature_error.2.2.2 0 0 0 1 (by decide) (by decide) (by decide) (by decide),
   by rfl⟩



/-- C4: decoding a local file header reads `compressed_size` bytes of
`file_data` and then, exactly when bit 3 of `flags` is set, a trailing
12-byte data descriptor (three little-endian `u32`s) from the bytes after
`file_data`; when the bit is unset no descriptor is read.  Stated over every
assembled header: the decoded record carries `file_data = dat` untouched and
the descriptor comes from the separate 12 bytes. -/
theorem zp_data_descriptor_flag_gated :
    ∀ (v fl cp mt md crc us d1 d2 d3 : Nat) (name extra dat rest : List Nat),
      v < 65536 → fl < 65536 → cp < 65536 → mt < 65536 → md < 65536 →
      crc < 4294967296 → us < 4294967296 →
      d1 < 4294967296 → d2 < 4294967296 → d3 < 4294967296 →
      name.length < 65536 → extra.length < 65536 → dat.length < 4294967296 →
      readEntry ([80, 75, 3, 4] ++ enc16 v ++ enc16 fl ++ enc16 cp ++ enc16 mt ++
          enc16 md ++ enc32 crc ++ enc32 dat.length ++ enc32 us ++
          enc16 name.length ++ enc16 extra.length ++ name ++ extra ++ dat ++
          (if fl &&& 8 ≠ 0 then enc32 d1 ++ enc32 d2 ++ enc32 d3 else []) ++ rest) =
        .ok (.localFile ⟨v, fl, cp, mt, md, crc, dat.length, us, name.length,
          extra.length, name, extra, dat,
          if fl &&& 8 ≠ 0 then some ⟨d1, d2, d3⟩ else none⟩, rest) := by
  intro v fl cp mt md crc us d1 d2 d3 name extra dat rest
  intro hv hfl hcp hmt hmd hcrc hus hd1 hd2 hd3 hname hextra hdat
  unfold readEntry parseLocalFileBody
  by_cases hbit : fl &&& 8 ≠ 0
  · simp only [List.append_assoc, if_pos hbit, read_n_magicLF, read_n_enc16, read_n_enc32,
      read_n_append, u16le_enc16 hv, u16le_enc16 hfl, u16le_enc16 hcp, u16le_enc16 hmt,
      u16le_enc16 hmd, u32le_enc32 hcrc, u32le_enc32 hus, u32le_enc32 hdat,
      u16le_enc16 hname, u16le_enc16 hextra, u32le_enc32 hd1, u32le_enc32 hd2,
      u32le_enc32 hd3, reduceIte]
  · simp only [List.append_assoc, if_neg hbit, read_n_magicLF, read_n_enc16, read_n_enc32,
      read_n_append, u16le_enc16 hv, u16le_enc16 hfl, u16le_enc16 hcp, u16le_enc16 hmt,
      u16le_enc16 hmd, u32le_enc32 hcrc, u32le_enc32 hus, u32le_enc32 hdat,
      u16le_enc16 hname, u16le_enc16 hextra, reduceIte]
    simp [List.append_nil]

/-- Witness for C4: one header with flag bit 3 set (descriptor `(1, 2, 3)`
read after the single data byte) and one with it unset (no descriptor). -/
theorem zp_data_descriptor_flag_gated_witness :
    readEntry ([80, 75, 3, 4] ++ enc16 0 ++ enc16 8 ++ enc16 0 ++ enc16 0 ++
        enc16 0 ++ enc32 0 ++ enc32 1 ++ enc32 0 ++ enc16 1 ++ enc16 0 ++
        [97] ++ [] ++ [5] ++ (enc32 1 ++ enc32 2 ++ enc32 3) ++ []) =
      .ok (.localFile ⟨0, 8, 0, 0, 0, 0, 1, 0, 1, 0, [97], [], [5],
        some ⟨1, 2, 3⟩⟩, []) ∧
    readEntry ([80, 75, 3, 4] ++ enc16 0 ++ enc16 0 ++ enc16 0 ++ enc16 0 ++
        enc16 0 ++ enc32 0 ++ enc32 1 ++ enc32 0 ++ enc16 1 ++ enc16 0 ++
        [97] ++ [] ++ [5] ++ [] ++ []) =
      .ok (.localFile ⟨0, 0, 0, 0, 0, 0, 1, 0, 1, 0, [97], [], [5], none⟩, []) :=
  ⟨zp_data_descriptor_flag_gated 0 8 0 0 0 0 0 1 2 3 [97] [] [5] []
      (by decide) (by decide) (by decide) (by decide) (by decide) (by decide)
      (by decide) (by decide) (by decide) (by decide) (by decide) (by decide)
      (by decide),
   zp_data_descriptor_flag_gated 0 0 0 0 0 0 0 1 2 3 [97] [] [5] []
      (by decide) (by decide) (by decide) (by decide) (by decide) (by decide)
      (by decide) (by decide) (by decide) (by decide) (by decide) (by decide)
      (by decide)⟩



/-! ### Lemmas about the summary renderer -/

theorem summaryList_local (lf : LocalFile) (r : List Entry) :
    summaryList (.localFile lf :: r) = summaryList r := rfl

theorem summaryList_eocd (ec : EndOfCentralDirectoryRecord) (r : List Entry) :
    summaryList (.endOfCentralDirectoryRecord ec :: r) = summaryList r := rfl

theorem summary_some_spec {c : CentralDirectoryFileHeader} {v : String}
    (h : c.summary = some v) : summaryLineSpec c v := by
  unfold CentralDirectoryFileHeader.summary at h
  cases hn : fromUtf8 c.file_name with
  | none =>
    simp only [hn] at h
    exact Option.noConfusion h
  | some nameS =>
    cases hc2 : fromUtf8 c.file_comment with
    | none =>
      simp only [hn, hc2] at h
      exact Option.noConfusion h
    | some comS =>
      simp only [hn, hc2, Option.some.injEq] at h
      exact ⟨nameS, comS, hn, hc2, h.symm⟩

theorem summary_none_of_bad {c : CentralDirectoryFileHeader}
    (h : utf8d c.file_name = none ∨ utf8d c.file_comment = none) :
    c.summary = none := by
  unfold CentralDirectoryFileHeader.summary
  rcases h with h | h
  · rw [show fromUtf8 c.file_name = none by simp [fromUtf8, h]]
  · cases hn : fromUtf8 c.file_name with
    | none => rfl
    | some nameS =>
      rw [show fromUtf8 c.file_comment = none by simp [fromUtf8, h]]

theorem summaryList_spec : ∀ (es : List Entry) (ls : List String),
    summaryList es = some ls →
    List.Forall₂ summaryLineSpec (es.filterMap centralOf) ls := by
  intro es
  induction es with
  | nil =>
    intro ls h
    unfold summaryList at h
    injection h with h
    subst h
    exact List.Forall₂.nil
  | cons e r ih =>
    intro ls h
    cases e with
    | localFile lf =>
      rw [summaryList_local] at h
      simpa [centralOf] using ih ls h
    | endOfCentralDirectoryRecord ec =>
      rw [summaryList_eocd] at h
      simpa [centralOf] using ih ls h
    | centralDirectoryFileHeader c =>
      have hh : summaryList (.centralDirectoryFileHeader c :: r) =
          match c.summary with
          | none => none
          | some v => (summaryList r).map (fun l => v :: l) := rfl
      rw [hh] at h
      cases hs : c.summary with
      | none => rw [hs] at h; exact Option.noConfusion h
      | some v =>
        rw [hs] at h
        cases hr : summaryList r with
        | none => rw [hr] at h; exact Option.noConfusion h
        | some ls2 =>
          rw [hr] at h
          injection h with h
          subst h
          simpa [centralOf] using
            List.Forall₂.cons (summary_some_spec hs) (ih ls2 hr)

theorem summaryList_none_of_mem {c : CentralDirectoryFileHeader} :
    ∀ es : List Entry, Entry.centralDirectoryFileHeader c ∈ es →
    (utf8d c.file_name = none ∨ utf8d c.file_comment = none) →
    summaryList es = none := by
  intro es
  induction es with
  | nil => intro hm; simp at hm
  | cons e r ih =>
    intro hm hbad
    rcases List.mem_cons.mp hm with he | hm2
    · subst he
      have hh : summaryList (.centralDirectoryFileHeader c :: r) =
          match c.summary with
          | none => none
          | some v => (summaryList r).map (fun l => v :: l) := rfl
      rw [hh, summary_none_of_bad hbad]
    · cases e with
      | localFile lf => rw [summaryList_local]; exact ih hm2 hbad
      | endOfCentralDirectoryRecord ec => rw [summaryList_eocd]; exact ih hm2 hbad
      | centralDirectoryFileHeader c2 =>
        have hh : summaryList (.centralDirectoryFileHeader c2 :: r) =
            match c2.summary with
            | none => none
            | some v => (summaryList r).map (fun l => v :: l) := rfl
        rw [hh]
        cases hs : c2.summary with
        | none => rfl
        | some v => rw [ih hm2 hbad]; rfl

theorem summaryList_no_central : ∀ es : List Entry,
    (∀ c, Entry.centralDirectoryFileHeader c ∉ es) →
    summaryList es = some [] := by
  intro es
  induction es with
  | nil => intro h; rfl
  | cons e r ih =>
    intro h
    cases e with
    | localFile lf =>
      rw [summaryList_local]
      exact ih (fun c hc => h c (List.mem_cons_of_mem _ hc))
    | endOfCentralDirectoryRecord ec =>
      rw [summaryList_eocd]
      exact ih (fun c hc => h c (List.mem_cons_of_mem _ hc))
    | centralDirectoryFileHeader c =>
      exact absurd (List.mem_cons_self _ _) (h c)

/-- C6: whenever summary rendering returns a text, that text is the
concatenation, in input order, of exactly one line per central-directory
header (local file headers and the end record contribute nothing), each line
carrying name, directory flag, uncompressed size, `YYYY-MM-DDThh:mm:ss` and
comment, tab-separated. -/
theorem zp_summary_lines :
    ∀ (z : Zip) (out : String), Zip.summary z = some out →
      ∃ ls : List String, out = String.join ls ∧
        List.Forall₂ summaryLineSpec (z.entries.filterMap centralOf) ls := by
  intro z out h
  unfold Zip.summary at h
  cases hsl : summaryList z.entries with
  | none => rw [hsl] at h; exact Option.noConfusion h
  | some ls =>
    rw [hsl] at h
    injection h with h
    exact ⟨ls, h.symm, summaryList_spec _ _ hsl⟩

/-- Witness for C6 on a one-header archive: the name `a/` yields the line
`a/ true 0 1980-00-00T00:00:00` (tab-separated, empty comment). -/
theorem zp_summary_lines_witness :
    ∃ ls : List String, "a/\ttrue\t0\t1980-00-00T00:00:00\t\n" = String.join ls ∧
      List.Forall₂ summaryLineSpec
        ((Zip.mk [.centralDirectoryFileHeader centralDemo]).entries.filterMap centralOf) ls :=
  zp_summary_lines ⟨[.centralDirectoryFileHeader centralDemo]⟩ _ (by rfl)

/-- C9: summary mode requires text validity too — a successfully decoded
archive containing a central header whose name or comment is not valid UTF-8
makes `Zip::summary` hit its unconditional `unwrap` (modelled `none`), so
the whole run panics instead of returning a string. -/
theorem zp_summary_panics_on_non_utf8 :
    ∀ (s : List Nat) (z : Zip) (c : CentralDirectoryFileHeader),
      Zip.process s = .ok z →
      Entry.centralDirectoryFileHeader c ∈ z.entries →
      (utf8d c.file_name = none ∨ utf8d c.file_comment = none) →
      Zip.summary z = none ∧ process s false = .panicked := by
  intro s z c hok hmem hbad
  have hsum : Zip.summary z = none := by
    unfold Zip.summary
    rw [summaryList_none_of_mem z.entries hmem hbad]
    rfl
  refine ⟨hsum, ?_⟩
  unfold process
  rw [hok]
  show (match z.output false with
    | none => ROutcome.panicked
    | some t => ROutcome.ok t) = ROutcome.panicked
  unfold Zip.output
  rw [if_neg (by simp), hsum]

/-- Witness for C9: a decoded archive with a single central header whose
`file_name` byte `0xff` is invalid UTF-8 panics in summary mode. -/
theorem zp_summary_panics_on_non_utf8_witness :
    Zip.summary ⟨[.centralDirectoryFileHeader badNameCentral]⟩ = none ∧
    process badNameCentralBytes false = .panicked :=
  zp_summary_panics_on_non_utf8 badNameCentralBytes
    ⟨[.centralDirectoryFileHeader badNameCentral]⟩ badNameCentral
    (by rfl) (by decide) (Or.inl (by rfl))

/-- C10: a successfully decoded archive with no central-directory header at
all (for example local file headers plus the end record only) renders in
summary mode as the empty string — no error, zero lines. -/
theorem zp_summary_empty_without_central :
    ∀ (s : List Nat) (z : Zip), Zip.process s = .ok z →
      (∀ c, Entry.centralDirectoryFileHeader c ∉ z.entries) →
      Zip.summary z = some "" ∧ process s false = .ok "" := by
  intro s z hok hno
  have hsum : Zip.summary z = some "" := by
    unfold Zip.summary
    rw [summaryList_no_central z.entries hno]
    rfl
  refine ⟨hsum, ?_⟩
  unfold process
  rw [hok]
  show (match z.output false with
    | none => ROutcome.panicked
    | some t => ROutcome.ok t) = ROutcome.ok ""
  unfold Zip.output
  rw [if_neg (by simp), hsum]

/-- Witness for C10: the one-record end-of-central-directory stream decodes
fine and its summary is the empty string. -/
theorem zp_summary_empty_without_central_witness :
    Zip.summary ⟨[.endOfCentralDirectoryRecord eocdRecord]⟩ = some "" ∧
    process eocdBytes false = .ok "" :=
  zp_summary_empty_without_central eocdBytes ⟨[.endOfCentralDirectoryRecord eocdRecord]⟩
    (by rfl) (by intro c hc; simp at hc)




/-- C7: verbose rendering fails (the panic of the `unwrap`, modelled `none`)
exactly when a human-readable field (`file_name`, `file_comment`,
`zip_file_comment`) is not valid UTF-8 — never silently substituting — and
when those fields are valid UTF-8, the output contains for each of them a
line with the bytes as lowercase hex followed by the decoded text in
parentheses. -/
theorem zp_verbose_text_fields :
    (∀ lf : LocalFile, (lf.verbose).isSome ↔ (utf8d lf.file_name).isSome) ∧
    (∀ c : CentralDirectoryFileHeader, (c.verbose).isSome ↔
      ((utf8d c.file_name).isSome ∧ (utf8d c.file_comment).isSome)) ∧
    (∀ ec : EndOfCentralDirectoryRecord, (ec.verbose).isSome ↔
      (utf8d ec.zip_file_comment).isSome) ∧
    (∀ (lf : LocalFile) (out : String), lf.verbose = some out →
      ∃ nameS A B, fromUtf8 lf.file_name = some nameS ∧
        out = A ++ fileNameLine lf.file_name nameS ++ B) ∧
    (∀ (c : CentralDirectoryFileHeader) (out : String), c.verbose = some out →
      ∃ nameS comS A B, fromUtf8 c.file_name = some nameS ∧
        fromUtf8 c.file_comment = some comS ∧
        out = A ++ fileNameLine c.file_name nameS ++ B ++
          fileCommentLine c.file_comment comS) ∧
    (∀ (ec : EndOfCentralDirectoryRecord) (out : String), ec.verbose = some out →
      ∃ comS A, fromUtf8 ec.zip_file_comment = some comS ∧
        out = A ++ zipCommentLine ec.zip_file_comment comS) := by
  refine ⟨?_, ?_, ?_, ?_, ?_, ?_⟩
  · intro lf
    unfold LocalFile.verbose
    cases h : utf8d lf.file_name <;> simp [fromUtf8, h]
  · intro c
    unfold CentralDirectoryFileHeader.verbose
    cases h : utf8d c.file_name <;>
      cases h2 : utf8d c.file_comment <;> simp [fromUtf8, h, h2]
  · intro ec
    unfold EndOfCentralDirectoryRecord.verbose
    cases h : utf8d ec.zip_file_comment <;> simp [fromUtf8, h]
  · intro lf out h
    unfold LocalFile.verbose at h
    cases hn : fromUtf8 lf.file_name with
    | none =>
      simp only [hn] at h
      exact Option.noConfusion h
    | some nameS =>
      simp only [hn, Option.some.injEq] at h
      refine ⟨nameS,
        "sig = 0x504b0304 (Local file header)\n" ++
        "version = 0x" ++ hexPad 4 lf.version ++ " (" ++ decStr lf.version ++ ")\n" ++
        "flags = 0x" ++ hexPad 4 lf.flags ++ " (" ++ decStr lf.flags ++ ")\n" ++
        "compression = 0x" ++ hexPad 4 lf.compression ++ " (" ++
          decStr lf.compression ++ ")\n" ++
        "mod_time = 0x" ++ hexPad 4 lf.mod_time ++ " (" ++
          tuple3Debug (Zp.mod_time lf.mod_time).1 ++ ")\n" ++
        "mod_date = 0x" ++ hexPad 4 lf.mod_date ++ " (" ++
          tuple3Debug (Zp.mod_date lf.mod_date).1 ++ ")\n" ++
        "crc32 = 0x" ++ hexPad 8 lf.crc32 ++ " (" ++ decStr lf.crc32 ++ ")\n" ++
        "compressed_size = 0x" ++ hexPad 8 lf.compressed_size ++ " (" ++
          decStr lf.compressed_size ++ ")\n" ++
        "uncompressed_size = 0x" ++ hexPad 8 lf.uncompressed_size ++ " (" ++
          decStr lf.uncompressed_size ++ ")\n" ++
        "file_name_length = 0x" ++ hexPad 4 lf.file_name_length ++ " (" ++
          decStr lf.file_name_length ++ ")\n" ++
        "extra_field_length = 0x" ++ hexPad 4 lf.extra_field_length ++ " (" ++
          decStr lf.extra_field_length ++ ")\n",
        "extra_field = " ++ rustDebugStr (hex_encode lf.extra_field) ++ "\n" ++
        "file_data = " ++ rustDebugStr (hex_encode lf.file_data) ++ "\n" ++
        "data_descriptor = " ++
          (match lf.data_descriptor with
            | some d => d.verbose
            | none => "None") ++ "\n",
        rfl, ?_⟩
      rw [← h]
      simp only [fileNameLine, String.append_assoc]
  · intro c out h
    unfold CentralDirectoryFileHeader.verbose at h
    cases hn : fromUtf8 c.file_name with
    | none =>
      simp only [hn] at h
      exact Option.noConfusion h
    | some nameS =>
      cases hc : fromUtf8 c.file_comment with
      | none =>
        simp only [hn, hc] at h
        exact Option.noConfusion h
      | some comS =>
        simp only [hn, hc, Option.some.injEq] at h
        refine ⟨nameS, comS,
          "sig = 0x504b0102 (Central directory file header)\n" ++
          "version = 0x" ++ hexPad 4 c.version ++ " (" ++ decStr c.version ++ ")\n" ++
          "version_needed = 0x" ++ hexPad 4 c.version_needed ++ " (" ++
            decStr c.version_needed ++ ")\n" ++
          "flags = 0x" ++ hexPad 4 c.flags ++ " (" ++ decStr c.flags ++ ")\n" ++
          "compression = 0x" ++ hexPad 4 c.compression ++ " (" ++
            decStr c.compression ++ ")\n" ++
          "mod_time = 0x" ++ hexPad 4 c.mod_time ++ " (" ++
            tuple3Debug (Zp.mod_time c.mod_time).1 ++ ")\n" ++
          "mod_date = 0x" ++ hexPad 4 c.mod_date ++ " (" ++
            tuple3Debug (Zp.mod_date c.mod_date).1 ++ ")\n" ++
          "crc32 = 0x" ++ hexPad 8 c.crc32 ++ " (" ++ decStr c.crc32 ++ ")\n" ++
          "compressed_size = 0x" ++ hexPad 8 c.compressed_size ++ " (" ++
            decStr c.compressed_size ++ ")\n" ++
          "uncompressed_size = 0x" ++ hexPad 8 c.uncompressed_size ++ " (" ++
            decStr c.uncompressed_size ++ ")\n" ++
          "file_name_length = 0x" ++ hexPad 4 c.file_name_length ++ " (" ++
            decStr c.file_name_length ++ ")\n" ++
          "extra_field_length = 0x" ++ hexPad 4 c.extra_field_length ++ " (" ++
            decStr c.extra_field_length ++ ")\n" ++
          "file_comment_length = 0x" ++ hexPad 4 c.file_comment_length ++ " (" ++
            decStr c.file_comment_length ++ ")\n" ++
          "disk_number_start = 0x" ++ hexPad 4 c.disk_number_start ++ " (" ++
            decStr c.disk_number_start ++ ")\n" ++
          "internal_file_attributes = 0x" ++ hexPad 4 c.internal_file_attributes ++
            " (" ++ decStr c.internal_file_attributes ++ ")\n" ++
          "external_file_attributes = 0x" ++ hexPad 8 c.external_file_attributes ++
            " (" ++ decStr c.external_file_attributes ++ ")\n" ++
          "lfh_offset = 0x" ++ hexPad 8 c.lfh_offset ++ " (" ++
            decStr c.lfh_offset ++ ")\n",
          "extra_field = " ++ rustDebugStr (hex_encode c.extra_field) ++ "\n",
          rfl, rfl, ?_⟩
        rw [← h]
        simp only [fileNameLine, fileCommentLine, String.append_assoc]
  · intro ec out h
    unfold EndOfCentralDirectoryRecord.verbose at h
    cases hc : fromUtf8 ec.zip_file_comment with
    | none =>
      simp only [hc] at h
      exact Option.noConfusion h
    | some comS =>
      simp only [hc, Option.some.injEq] at h
      refine ⟨comS,
        "sig = 0x504b0506 (End of central directory record)\n" ++
        "disk_number = 0x" ++ hexPad 4 ec.disk_number ++ " (" ++
          decStr ec.disk_number ++ ")\n" ++
        "disk_number_w_cd = 0x" ++ hexPad 4 ec.disk_number_w_cd ++ " (" ++
          decStr ec.disk_number_w_cd ++ ")\n" ++
        "disk_entries = 0x" ++ hexPad 4 ec.disk_entries ++ " (" ++
          decStr ec.disk_entries ++ ")\n" ++
        "total_entries = 0x" ++ hexPad 4 ec.total_entries ++ " (" ++
          decStr ec.total_entries ++ ")\n" ++
        "cd_size = 0x" ++ hexPad 8 ec.cd_size ++ " (" ++ decStr ec.cd_size ++ ")\n" ++
        "cd_offset = 0x" ++ hexPad 8 ec.cd_offset ++ " (" ++
          decStr ec.cd_offset ++ ")\n" ++
        "comment_length = 0x" ++ hexPad 4 ec.comment_length ++ " (" ++
          decStr ec.comment_length ++ ")\n",
        rfl, ?_⟩
      rw [← h]
      simp only [zipCommentLine, String.append_assoc]

/-- Witness for C7: the valid one-byte name `a` renders with its hex and
text forms; the invalid name byte `0xff` makes the central verbose renderer
fail. -/
theorem zp_verbose_text_fields_witness :
    (∃ nameS A B, fromUtf8 localDemo.file_name = some nameS ∧
      localDemoVerboseOut = A ++ fileNameLine localDemo.file_name nameS ++ B) ∧
    ¬ (CentralDirectoryFileHeader.verbose badNameCentral).isSome :=
  ⟨zp_verbose_text_fields.2.2.2.1 localDemo localDemoVerboseOut (by rfl),
   fun hs =>
     absurd ((zp_verbose_text_fields.2.1 badNameCentral).mp hs).1 (by decide)⟩



/-! ### Lemmas for the snapshot-vs-current comparison (C8) -/

theorem read_n_magicCD (b : List Nat) :
    read_n 4 ([80, 75, 1, 2] ++ b) = some ([80, 75, 1, 2], b) := read_n_append' rfl

theorem encodeCentrals_nil : encodeCentrals [] = [] := rfl

theorem encodeCentrals_cons (c : CentralDirectoryFileHeader)
    (cs : List CentralDirectoryFileHeader) :
    encodeCentrals (c :: cs) = encodeCentral c ++ encodeCentrals cs := by
  simp [encodeCentrals]

theorem parseCentral_encode {c : CentralDirectoryFileHeader} (hw : WFCentral c)
    (rest : List Nat) :
    readEntry (encodeCentral c ++ rest) =
      .ok (.centralDirectoryFileHeader c, rest) := by
  obtain ⟨h1, h2, h3, h4, h5, h6, h7, h8, h9, h10, h11, h12, h13, h14, h15,
    h16, h17, h18, h19⟩ := hw
  unfold readEntry encodeCentral encodeCentralBody parseCentralBody
  simp only [List.append_assoc, read_n_magicCD, read_n_enc16, read_n_enc32,
    read_n_append, u16le_enc16 h1, u16le_enc16 h2, u16le_enc16 h3,
    u16le_enc16 h4, u16le_enc16 h5, u16le_enc16 h6, u32le_enc32 h7,
    u32le_enc32 h8, u32le_enc32 h9, u16le_enc16 h11,
    u16le_enc16 h13, u16le_enc16 h15, u16le_enc16 h16,
    u16le_enc16 h17, u32le_enc32 h18, u32le_enc32 h19, h10, h12, h14,
    eq_false (show ¬(([80, 75, 1, 2] : List Nat) = [80, 75, 3, 4]) by decide),
    eq_self_iff_true, if_true, if_false]
  rw [← h10, ← h12, ← h14]

theorem readEntries_encodeCentrals :
    ∀ cs : List CentralDirectoryFileHeader, (∀ c ∈ cs, WFCentral c) →
    readEntries (encodeCentrals cs) =
      .ok (cs.map .centralDirectoryFileHeader) := by
  intro cs
  induction cs with
  | nil => intro h; exact readEntries_eof (by decide)
  | cons c cs ih =>
    intro h
    rw [encodeCentrals_cons]
    rw [readEntries_cons (parseCentral_encode (h c (by simp)) (encodeCentrals cs))]
    rw [ih (fun x hx => h x (by simp [hx]))]
    rfl



theorem snapCentral_encode {c : CentralDirectoryFileHeader} (hw : WFCentral c)
    (rest : List Nat) :
    snapCentral (encodeCentralBody c ++ rest) false =
      (match c.summary with
        | none => Except.error SnapErr.panicked
        | some line => Except.ok ([line], rest)) := by
  obtain ⟨h1, h2, h3, h4, h5, h6, h7, h8, h9, h10, h11, h12, h13, h14, h15,
    h16, h17, h18, h19⟩ := hw
  have hff : (false = true) = False := by simp
  unfold snapCentral encodeCentralBody CentralDirectoryFileHeader.summary
  simp only [List.append_assoc, read_n_enc16, read_n_enc32, read_n_append,
    u16le_enc16 h1, u16le_enc16 h2, u16le_enc16 h3, u16le_enc16 h4,
    u16le_enc16 h5, u16le_enc16 h6, u32le_enc32 h7, u32le_enc32 h8,
    u32le_enc32 h9, u16le_enc16 h11, u16le_enc16 h13, u16le_enc16 h15,
    u16le_enc16 h16, u16le_enc16 h17, u32le_enc32 h18, u32le_enc32 h19,
    h10, h12, h14, hff, if_false]
  cases hn : fromUtf8 c.file_name with
  | none => simp only [hn]
  | some nameT =>
    cases hcm : fromUtf8 c.file_comment with
    | none => simp only [hn, hcm]
    | some comT => simp only [hn, hcm]

theorem encodeCentral_len (c : CentralDirectoryFileHeader) :
    4 ≤ (encodeCentral c).length := by
  simp [encodeCentral]

theorem u32be_magicCD : u32be [80, 75, 1, 2] = 0x504b0102 := by decide

theorem snapLoop_encodeCentrals :
    ∀ (cs : List CentralDirectoryFileHeader) (f : Nat),
      (encodeCentrals cs).length < f → (∀ c ∈ cs, WFCentral c) →
      snapLoopF f (encodeCentrals cs) false =
        (match summaryList (cs.map .centralDirectoryFileHeader) with
          | none => SnapRes.panicked
          | some ls => SnapRes.strs ls) := by
  intro cs
  induction cs with
  | nil =>
    intro f hf _
    cases f with
    | zero => omega
    | succ f =>
      show snapLoopF (f + 1) [] false = _
      unfold snapLoopF
      simp [read_n]
      rfl
  | cons c cs ih =>
    intro f hf hw
    rw [encodeCentrals_cons] at hf ⊢
    cases f with
    | zero =>
      rw [List.length_append] at hf
      omega
    | succ f =>
      have hge := encodeCentral_len c
      have hlen : (encodeCentrals cs).length < f := by
        rw [List.length_append] at hf
        omega
    
      unfold snapLoopF
      rw [show encodeCentral c ++ encodeCentrals cs =
        [80, 75, 1, 2] ++ (encodeCentralBody c ++ encodeCentrals cs) by
          simp [encodeCentral]]
      rw [read_n_magicCD]
      dsimp only
      rw [u32be_magicCD, if_neg (show ¬((0x504b0102 : Nat) = 0x504b0304) by decide),
        if_pos (show (0x504b0102 : Nat) = 0x504b0102 from rfl)]
      rw [snapCentral_encode (hw c (by simp)) (encodeCentrals cs)]
      cases hsum : c.summary with
      | none =>
        show SnapRes.panicked = _
        have hh : summaryList
            (.centralDirectoryFileHeader c :: cs.map .centralDirectoryFileHeader) =
            (match c.summary with
              | none => none
              | some v =>
                (summaryList (cs.map .centralDirectoryFileHeader)).map
                  (fun l => v :: l)) := rfl
        rw [List.map_cons, hh, hsum]
      | some line =>
        show (match snapLoopF f (encodeCentrals cs) false with
          | .strs l => SnapRes.strs ([] ++ [line] ++ l)
          | x => x) = _
        rw [ih f hlen (fun x hx => hw x (by simp [hx]))]
        have hh : summaryList
            (.centralDirectoryFileHeader c :: cs.map .centralDirectoryFileHeader) =
            (match c.summary with
              | none => none
              | some v =>
                (summaryList (cs.map .centralDirectoryFileHeader)).map
                  (fun l => v :: l)) := rfl
        rw [List.map_cons, hh, hsum]
        cases hs2 : summaryList (cs.map .centralDirectoryFileHeader) with
        | none => rfl
        | some ls => rfl

theorem data_foldl_append (ls : List String) : ∀ a : String,
    (ls.foldl (fun r s => r ++ s) a).data = a.data ++ (ls.map String.data).flatten := by
  induction ls with
  | nil => intro a; simp
  | cons s r ih =>
    intro a
    rw [List.foldl_cons, ih]
    simp [data_append]

theorem join_data (ls : List String) :
    (String.join ls).data = (ls.map String.data).flatten := by
  show (ls.foldl (fun r s => r ++ s) "").data = _
  rw [data_foldl_append]
  rfl

theorem summary_line_has_tab {c : CentralDirectoryFileHeader} {line : String}
    (h : c.summary = some line) : ∃ ch ∈ line.data, ch = Char.ofNat 9 := by
  obtain ⟨nameS, comS, _, _, hline⟩ := summary_some_spec h
  subst hline
  refine ⟨Char.ofNat 9, ?_, rfl⟩
  simp only [data_append, List.mem_append]
  left
  left
  left
  left
  left
  left
  left
  left
  left
  left
  left
  left
  left
  left
  left
  left
  right
  decide



theorem process_summary_spec {s : List Nat} {l : List Entry}
    (h : readEntries s = Except.ok l) (hne : l.isEmpty = false) :
    process s false =
      (match summaryList l with
        | none => ROutcome.panicked
        | some ls => ROutcome.ok (String.join ls)) := by
  unfold process Zip.process
  rw [h]
  dsimp only
  rw [hne, if_neg (by decide)]
  unfold Zip.output
  dsimp only
  rw [if_neg (by decide)]
  unfold Zip.summary
  dsimp only
  cases hs : summaryList l with
  | none => rfl
  | some ls => rfl

theorem snapshot_of_panicked {s : List Nat}
    (h : snapLoopF (s.length + 1) s false = SnapRes.panicked) :
    Snapshot.process s false = ROutcome.panicked := by
  unfold Snapshot.process
  rw [h]

theorem snapshot_of_strs {s : List Nat} {ls : List String}
    (h : snapLoopF (s.length + 1) s false = SnapRes.strs ls)
    (hne : ¬(String.join ls = "---\nEOF\n---\n")) :
    Snapshot.process s false = ROutcome.ok (String.join ls) := by
  unfold Snapshot.process
  rw [h]
  dsimp only
  rw [if_neg hne]

theorem summaryList_cons_join_ne {c : CentralDirectoryFileHeader}
    {r : List Entry} {ls : List String}
    (h : summaryList (Entry.centralDirectoryFileHeader c :: r) = some ls) :
    ¬(String.join ls = "---\nEOF\n---\n") := by
  have hh : summaryList (Entry.centralDirectoryFileHeader c :: r) =
      (match c.summary with
        | none => none
        | some v => (summaryList r).map (fun l => v :: l)) := rfl
  rw [hh] at h
  cases hsum : c.summary with
  | none =>
    rw [hsum] at h
    exact absurd h (by simp)
  | some line =>
    rw [hsum] at h
    obtain ⟨ls2, hls2, rfl⟩ := Option.map_eq_some'.mp h
    obtain ⟨ch, hch, rfl⟩ := summary_line_has_tab hsum
    intro he
    have hmem : Char.ofNat 9 ∈ (String.join (line :: ls2)).data := by
      rw [join_data]
      exact List.mem_append_left _ hch
    rw [he] at hmem
    exact absurd hmem (by decide)

set_option maxRecDepth 4000 in
/-- C8 counterexample: the snapshot and the current pipeline are not
extensionally equal.  On the empty stream in summary mode the snapshot
returns `Ok ""` while the current pipeline errors; on an end record with a
4-byte trailing comment the snapshot, which never reads the comment bytes,
re-reads them as a bogus signature and errors while the current pipeline
succeeds; and in verbose mode their `Ok` texts differ (the snapshot prints
no `zip_file_comment` line). -/
theorem zp_snapshot_divergence_counterexample :
    Snapshot.process [] false = .ok "" ∧
    process [] false = .err "Unexpected end of file" ∧
    Snapshot.process eocdCommentDemo false = .err "Invalid signature: `61616161`" ∧
    process eocdCommentDemo false = .ok "" ∧
    Snapshot.process eocdBytes true ≠ process eocdBytes true :=
  ⟨by decide, by decide, by decide, by decide, by decide⟩

/-- C8 (amended): restricted to summary mode and to nonempty streams that
are concatenations of well-formed central directory headers, the historical
snapshot and the current pipeline return the same result (identical `Ok`
text, or both panicking on the same invalid text field). -/
theorem zp_snapshot_current_summary_agree :
    ∀ cs : List CentralDirectoryFileHeader, cs ≠ [] →
      (∀ c ∈ cs, WFCentral c) →
      Snapshot.process (encodeCentrals cs) false =
        process (encodeCentrals cs) false := by
  intro cs hne hw
  obtain ⟨c, cs2, rfl⟩ : ∃ c cs2, cs = c :: cs2 := by
    cases cs with
    | nil => exact absurd rfl hne
    | cons c cs2 => exact ⟨c, cs2, rfl⟩
  have hcur := readEntries_encodeCentrals (c :: cs2) hw
  have hsnap := snapLoop_encodeCentrals (c :: cs2)
      ((encodeCentrals (c :: cs2)).length + 1) (Nat.lt_succ_self _) hw
  rw [process_summary_spec hcur (by simp), List.map_cons]
  rw [List.map_cons] at hsnap
  cases hs : summaryList
      (Entry.centralDirectoryFileHeader c :: cs2.map Entry.centralDirectoryFileHeader) with
  | none =>
    rw [hs] at hsnap
    exact snapshot_of_panicked hsnap
  | some ls =>
    rw [hs] at hsnap
    exact snapshot_of_strs hsnap (summaryList_cons_join_ne hs)

/-- Witness for the amended C8 at a one-header stream. -/
theorem zp_snapshot_current_summary_agree_witness :
    Snapshot.process (encodeCentrals [centralDemo]) false =
      process (encodeCentrals [centralDemo]) false :=
  zp_snapshot_current_summary_agree [centralDemo] (by decide) (by decide)


end Zp
